import Mathlib

/-!
Verification of the rural-ai-training catalog system against its
natural-language specification.  The Python sources under
`src/ai_training_catalog/` are shallowly embedded below: pure Python
functions become Lean functions over `List Char` / `String`, Python
`float` values are modelled as exact rationals (`ℚ`), `datetime` instants
are modelled as integers (days since an arbitrary epoch), and Python
dictionaries (which preserve insertion order) become association lists.
-/

set_option maxHeartbeats 1600000
set_option maxRecDepth 100000

/- The rational operations in core Lean are sealed against unfolding;
re-opening them lets `decide` evaluate the embedded functions on
concrete inputs.  This affects elaboration only, not the kernel. -/
attribute [local semireducible] Rat.add Rat.mul Rat.inv Rat.sub Rat.ofScientific

/-! ## Python string primitives (ASCII fragment)

The repository only manipulates ASCII text in the code paths under
verification; `str.lower`, `str.strip`, `str.title` and the regular
expressions in `utils/text_processing.py` are modelled on the ASCII
fragment accordingly. -/

/-- Python `\s` character class restricted to ASCII, as used by
`re.sub` in `utils/text_processing.py` and by `str.strip`. -/
def isPySpace (c : Char) : Bool :=
  c = ' ' ∨ c = '\t' ∨ c = '\n' ∨ c = '\x0b' ∨ c = '\x0c' ∨ c = '\r'

/-- ASCII `str.lower` on a single character. -/
def pyLowerChar (c : Char) : Char :=
  if 'A' ≤ c ∧ c ≤ 'Z' then Char.ofNat (c.toNat + 32) else c

/-- ASCII `str.upper` on a single character. -/
def pyUpperChar (c : Char) : Char :=
  if 'a' ≤ c ∧ c ≤ 'z' then Char.ofNat (c.toNat - 32) else c

/-- Python `str.lower` (ASCII fragment). -/
def pyLower (s : String) : String :=
  ⟨s.data.map pyLowerChar⟩

/-- Python `str.strip()` on a character list: drop leading and trailing
whitespace. -/
def pyStripL (l : List Char) : List Char :=
  ((l.dropWhile isPySpace).reverse.dropWhile isPySpace).reverse

/-- Python `str.strip()`. -/
def pyStrip (s : String) : String :=
  ⟨pyStripL s.data⟩

/-- Python `str.rstrip("/")` on a character list: drop trailing slashes. -/
def rstripSlashL (l : List Char) : List Char :=
  (l.reverse.dropWhile (fun c => c = '/')).reverse

/-- Python `str.rstrip("/")`. -/
def rstripSlash (s : String) : String :=
  ⟨rstripSlashL s.data⟩

/-- Python `int(x)` for a rational argument: truncation toward zero. -/
def pyInt (x : ℚ) : ℤ :=
  if 0 ≤ x then ⌊x⌋ else ⌈x⌉

/-- Round an integer-scaled value by the round-half-to-even rule used by
Python `round`: given `y`, produce the nearest integer, breaking ties
toward the even neighbour. -/
def roundHalfEven (y : ℚ) : ℤ :=
  let n := ⌊y⌋
  let f := y - n
  if f < 1/2 then n
  else if 1/2 < f then n + 1
  else if Even n then n else n + 1

/-- Python `round(x, d)` on the exact rational model of a float:
round-half-to-even at `d` decimal digits. -/
def pythonRound (d : ℕ) (x : ℚ) : ℚ :=
  (roundHalfEven (x * 10 ^ d) : ℚ) / 10 ^ d

/-! ## Ordered association lists (Python `dict` model)

Python dictionaries preserve insertion order: assigning to a fresh key
appends it, assigning to an existing key overwrites in place. -/

/-- Look up a key in an ordered association list. -/
def alGet {κ β : Type} [DecidableEq κ] (l : List (κ × β)) (k : κ) : Option β :=
  match l with
  | [] => none
  | (k', v) :: rest => if k' = k then some v else alGet rest k

/-- Look up a key, with a default (Python `dict.get(k, d)`). -/
def alGetD {κ β : Type} [DecidableEq κ] (l : List (κ × β)) (k : κ) (d : β) : β :=
  (alGet l k).getD d

/-- Whether the association list holds the key (Python `in`). -/
def alHasKey {κ β : Type} [DecidableEq κ] (l : List (κ × β)) (k : κ) : Bool :=
  (alGet l k).isSome

/-- Python `d[k] = v`: overwrite in place when the key exists, append
otherwise. -/
def alSet {κ β : Type} [DecidableEq κ] (l : List (κ × β)) (k : κ) (v : β) : List (κ × β) :=
  match l with
  | [] => [(k, v)]
  | (k', v') :: rest => if k' = k then (k, v) :: rest else (k', v') :: alSet rest k v

/-- Count the entries of an association list carrying a given key. -/
def alCountKey {κ β : Type} [DecidableEq κ] (l : List (κ × β)) (k : κ) : ℕ :=
  l.countP (fun p => p.1 = k)

/-! ## Data model: `models/resource.py`

`Resource` carries every field of the pydantic model.  `datetime` fields
are integers (days since an arbitrary epoch); floats are rationals; enum
fields are inductives mirroring the Python enumerations. -/

inductive SkillDomain where
  | ml_basics | deep_learning | nlp | computer_vision | mlops
  | generative_ai | reinforcement_learning | data_engineering
  | ai_strategy | ai_ethics | ai_project_management | ai_roi | ai_governance
deriving DecidableEq, Repr

/-- The `value` string of each `SkillDomain` enum member. -/
def SkillDomain.value : SkillDomain → String
  | .ml_basics => "ml_basics"
  | .deep_learning => "deep_learning"
  | .nlp => "nlp"
  | .computer_vision => "computer_vision"
  | .mlops => "mlops"
  | .generative_ai => "generative_ai"
  | .reinforcement_learning => "reinforcement_learning"
  | .data_engineering => "data_engineering"
  | .ai_strategy => "ai_strategy"
  | .ai_ethics => "ai_ethics"
  | .ai_project_management => "ai_project_management"
  | .ai_roi => "ai_roi"
  | .ai_governance => "ai_governance"

inductive ContentType where
  | course | tutorial | documentation | video_series | book
  | paper | blog_series | interactive_notebook | certification_prep
deriving DecidableEq, Repr

inductive DifficultyLevel where
  | beginner | intermediate | advanced
deriving DecidableEq, Repr

/-- The `value` string of each `DifficultyLevel` enum member. -/
def DifficultyLevel.value : DifficultyLevel → String
  | .beginner => "beginner"
  | .intermediate => "intermediate"
  | .advanced => "advanced"

inductive LicenseType where
  | cc_by | cc_by_sa | cc_by_nc | mit | apache_2 | free_access | unknown
deriving DecidableEq, Repr

/-- Raw search-result metadata consulted by the evaluator
(`result.raw.get("stars")`, `result.raw.get("updated_at")`).  The
`updated_at` ISO-8601 string is modelled as the already-parsed instant
(days since epoch); a missing key, an empty string, and a string that
fails `datetime.fromisoformat` all become `none`. -/
structure RawMeta where
  stars : ℤ := 0
  updated_at : Option ℤ := none
deriving DecidableEq, Repr

/-- `models/resource.py` `Resource` (pydantic model). -/
structure Resource where
  id : String := ""
  url : String
  title : String
  description : String := ""
  provider : String := ""
  domains : List SkillDomain := []
  content_type : ContentType := .tutorial
  difficulty : DifficultyLevel := .beginner
  license_type : LicenseType := .unknown
  language : String := "en"
  estimated_hours : Option ℚ := none
  prerequisites : List String := []
  tags : List String := []
  quality_score : ℚ := 0
  discovered_at : ℤ
  last_verified_at : Option ℤ := none
  is_active : Bool := true
  raw_metadata : RawMeta := {}
deriving DecidableEq, Repr

/-! ## Catalog store: `discovery/catalog.py`

The in-memory cache `self._cache : dict[str, Resource]` is an ordered
association list.  `upsert` returns the `is_new` flag together with the
updated cache; the synchronous repository write mirrors the cache and is
not modelled separately. -/

/-- `ResourceCatalog.upsert` from `discovery/catalog.py`: drop the
resource when its score is below `min_score`; otherwise merge with any
existing record (score becomes the max, `discovered_at` is preserved)
and store.  Returns `(is_new, updated cache)`. -/
def upsert (cache : List (String × Resource)) (resource : Resource) (min_score : ℚ) :
    Bool × List (String × Resource) :=
  if resource.quality_score < min_score then (false, cache)
  else
    let is_new := ! alHasKey cache resource.id
    let resource' :=
      match alGet cache resource.id with
      | none => resource
      | some existing =>
        { resource with
            quality_score := max resource.quality_score existing.quality_score
            discovered_at := existing.discovered_at }
    (is_new, alSet cache resource.id resource')

/-- Fold a list of submissions through `upsert`, keeping only the cache. -/
def upsertAll (cache : List (String × Resource)) (rs : List Resource) (min_score : ℚ) :
    List (String × Resource) :=
  rs.foldl (fun c r => (upsert c r min_score).2) cache

/-! ## SHA-256 (`hashlib.sha256`)

`models/resource.py` derives resource ids from the first 16 hex digits
of the SHA-256 of the canonical URL, and `curriculum/learning_path.py`
derives path ids from the first 12 hex digits of the SHA-256 of
`"<domain>-<difficulty>"`.  The hash is implemented here over byte
lists (naturals below 256), word-by-word with explicit `% 2^32`. -/

/-- Truncate to a 32-bit word. -/
def w32 (n : ℕ) : ℕ := n % 4294967296

/-- Rotate a 32-bit word right by `n` bits. -/
def rotr32 (n x : ℕ) : ℕ := w32 ((x >>> n) ||| (x <<< (32 - n)))

def shaCh (x y z : ℕ) : ℕ := (x &&& y) ^^^ ((x ^^^ 4294967295) &&& z)

def shaMaj (x y z : ℕ) : ℕ := (x &&& y) ^^^ (x &&& z) ^^^ (y &&& z)

def shaS0 (x : ℕ) : ℕ := rotr32 2 x ^^^ rotr32 13 x ^^^ rotr32 22 x

def shaS1 (x : ℕ) : ℕ := rotr32 6 x ^^^ rotr32 11 x ^^^ rotr32 25 x

def shaG0 (x : ℕ) : ℕ := rotr32 7 x ^^^ rotr32 18 x ^^^ (x >>> 3)

def shaG1 (x : ℕ) : ℕ := rotr32 17 x ^^^ rotr32 19 x ^^^ (x >>> 10)

/-- Bisection step for the integer cube root: `lo³ ≤ n < hi³` is kept
invariant while the interval shrinks. -/
def icbrtGo (n : ℕ) : ℕ → ℕ → ℕ → ℕ
  | 0, lo, _ => lo
  | fuel + 1, lo, hi =>
    if hi ≤ lo + 1 then lo
    else
      let mid := (lo + hi) / 2
      if mid ^ 3 ≤ n then icbrtGo n fuel mid hi else icbrtGo n fuel lo mid

/-- Integer cube root (largest `r` with `r³ ≤ n`, for the inputs used
here); 256 bisection steps cover every operand below `2^256`. -/
def icbrt (n : ℕ) : ℕ :=
  icbrtGo n 256 0 (n + 1)

/-- Bisection step for the integer square root. -/
def isqrtGo (n : ℕ) : ℕ → ℕ → ℕ → ℕ
  | 0, lo, _ => lo
  | fuel + 1, lo, hi =>
    if hi ≤ lo + 1 then lo
    else
      let mid := (lo + hi) / 2
      if mid ^ 2 ≤ n then isqrtGo n fuel mid hi else isqrtGo n fuel lo mid

/-- Integer square root (largest `r` with `r² ≤ n`, for the inputs used
here). -/
def isqrt (n : ℕ) : ℕ :=
  isqrtGo n 256 0 (n + 1)

/-- The first 64 primes, whose roots seed the SHA-256 constants. -/
def sha256Primes : List ℕ :=
  [2, 3, 5, 7, 11, 13, 17, 19, 23, 29, 31, 37, 41, 43, 47, 53,
   59, 61, 67, 71, 73, 79, 83, 89, 97, 101, 103, 107, 109, 113, 127, 131,
   137, 139, 149, 151, 157, 163, 167, 173, 179, 181, 191, 193, 197, 199, 211, 223,
   227, 229, 233, 239, 241, 251, 257, 263, 269, 271, 277, 281, 283, 293, 307, 311]

/-- SHA-256 round constants: the first 32 bits of the fractional parts
of the cube roots of the first 64 primes, `⌊∛p · 2^32⌋ - ⌊∛p⌋ · 2^32`
(tabulated in decimal; `shaK_from_primes` below checks the table against
that formula). -/
def shaK : List ℕ :=
  [1116352408, 1899447441, 3049323471, 3921009573, 961987163, 1508970993, 2453635748, 2870763221,
   3624381080, 310598401, 607225278, 1426881987, 1925078388, 2162078206, 2614888103, 3248222580,
   3835390401, 4022224774, 264347078, 604807628, 770255983, 1249150122, 1555081692, 1996064986,
   2554220882, 2821834349, 2952996808, 3210313671, 3336571891, 3584528711, 113926993, 338241895,
   666307205, 773529912, 1294757372, 1396182291, 1695183700, 1986661051, 2177026350, 2456956037,
   2730485921, 2820302411, 3259730800, 3345764771, 3516065817, 3600352804, 4094571909, 275423344,
   430227734, 506948616, 659060556, 883997877, 958139571, 1322822218, 1537002063, 1747873779,
   1955562222, 2024104815, 2227730452, 2361852424, 2428436474, 2756734187, 3204031479, 3329325298]

/-- SHA-256 initial hash state: the first 32 bits of the fractional
parts of the square roots of the first 8 primes (tabulated in decimal;
`shaH0_from_primes` below checks the table). -/
def shaH0 : List ℕ :=
  [1779033703, 3144134277, 1013904242, 2773480762, 1359893119, 2600822924, 528734635, 1541459225]

/-- Big-endian byte expansion of `n` to `k` bytes. -/
def toBytesBE (k n : ℕ) : List ℕ :=
  (List.range k).reverse.map (fun i => (n >>> (8 * i)) % 256)

/-- Split a list into consecutive chunks of size `n` (the last chunk may
be shorter).  Also models the Python `range(0, len, n)` slicing loop in
`learning_path.py`; a step of zero raises in Python and is mapped to the
empty list here. -/
def chunkListGo {α : Type} (n : ℕ) : ℕ → List α → List (List α)
  | 0, _ => []
  | _, [] => []
  | fuel + 1, l => l.take n :: chunkListGo n fuel (l.drop n)

def chunkList {α : Type} (n : ℕ) (l : List α) : List (List α) :=
  if n = 0 then [] else chunkListGo n l.length l

/-- Combine four bytes into one big-endian 32-bit word. -/
def bytesToWord (bs : List ℕ) : ℕ :=
  bs.foldl (fun acc b => acc * 256 + b) 0

/-- The 48 extension words of the message schedule, generated from a
sliding window of the previous sixteen words: entry `16 + j` is
`σ₁ W[14+j] + W[9+j] + σ₀ W[1+j] + W[j]` truncated to 32 bits. -/
def shaScheduleGo : ℕ → List ℕ → List ℕ
  | 0, _ => []
  | k + 1, window =>
    let next := w32 (shaG1 (window.getD 14 0) + window.getD 9 0 +
      shaG0 (window.getD 1 0) + window.getD 0 0)
    next :: shaScheduleGo k (window.drop 1 ++ [next])

/-- Extend the sixteen block words to the 64-entry message schedule. -/
def shaSchedule (ws : List ℕ) : List ℕ :=
  ws ++ shaScheduleGo 48 ws

/-- One SHA-256 compression step over a 64-byte block. -/
def shaCompress (hs : List ℕ) (block : List ℕ) : List ℕ :=
  let w := shaSchedule ((chunkList 4 block).map bytesToWord)
  let final := (List.range 64).foldl
    (fun st i =>
      match st with
      | [a, b, c, d, e, f, g, h] =>
        let t1 := w32 (h + shaS1 e + shaCh e f g + shaK.getD i 0 + w.getD i 0)
        let t2 := w32 (shaS0 a + shaMaj a b c)
        [w32 (t1 + t2), a, b, c, w32 (d + t1), e, f, g]
      | other => other)
    hs
  (hs.zip final).map (fun p => w32 (p.1 + p.2))

/-- SHA-256 of a byte list. -/
def sha256Bytes (msg : List ℕ) : List ℕ :=
  let len := msg.length
  let padded := msg ++ [128] ++ List.replicate ((119 - len % 64) % 64) 0 ++ toBytesBE 8 (8 * len)
  ((chunkList 64 padded).foldl shaCompress shaH0).flatMap (toBytesBE 4)

def hexDigit (n : ℕ) : Char :=
  "0123456789abcdef".data.getD n '0'

/-- Lowercase hex rendering of a byte list (`hexdigest`). -/
def bytesToHex (bs : List ℕ) : String :=
  ⟨bs.flatMap (fun b => [hexDigit (b / 16), hexDigit (b % 16)])⟩

/-- UTF-8 encoding of one character (`str.encode()`). -/
def utf8Bytes (c : Char) : List ℕ :=
  let n := c.toNat
  if n < 128 then [n]
  else if n < 2048 then [192 + n / 64, 128 + n % 64]
  else if n < 65536 then [224 + n / 4096, 128 + n / 64 % 64, 128 + n % 64]
  else [240 + n / 262144, 128 + n / 4096 % 64, 128 + n / 64 % 64, 128 + n % 64]

/-- `hashlib.sha256(s.encode()).hexdigest()`. -/
def sha256Hex (s : String) : String :=
  bytesToHex (sha256Bytes (s.data.flatMap utf8Bytes))

/-! ## Resource identity: `models/resource.py`

`_resource_id(url)` hashes `url.strip().rstrip("/").lower()` and keeps
the first 16 hex digits; `Resource.model_post_init` assigns it whenever
the id field is empty. -/

/-- The canonicalisation applied inside `_resource_id`:
`url.strip().rstrip("/").lower()`. -/
def canonicalUrl (url : String) : String :=
  pyLower (rstripSlash (pyStrip url))

/-- `_resource_id` from `models/resource.py`. -/
def resource_id (url : String) : String :=
  (sha256Hex (canonicalUrl url)).take 16

/-- The claim reads resource identity as a function of the URL after
case-folding and trailing-slash trimming only; this is that reading,
stated from the words of the spec for comparison with `resource_id`. -/
def foldTrimUrl (url : String) : String :=
  pyLower (rstripSlash url)

/-! ## Text utilities: `utils/text_processing.py` -/

/-- One character of the substitution `re.sub(r"[^a-z0-9\s]", " ", text)`:
keep lowercase letters, digits and whitespace, replace the rest by a
space. -/
def keepAlnum (c : Char) : Char :=
  if ('a' ≤ c ∧ c ≤ 'z') ∨ ('0' ≤ c ∧ c ≤ '9') ∨ isPySpace c then c else ' '

/-- The substitution `re.sub(r"\s+", " ", text)`: collapse each maximal
whitespace run into a single space.  The flag records whether the
previous character was whitespace. -/
def collapseWsAux : Bool → List Char → List Char
  | _, [] => []
  | prevSpace, c :: cs =>
    if isPySpace c then
      if prevSpace then collapseWsAux true cs else ' ' :: collapseWsAux true cs
    else c :: collapseWsAux false cs

/-- `normalise` from `utils/text_processing.py`: lower-case, replace
non-alphanumerics by spaces, collapse whitespace, strip. -/
def normaliseL (l : List Char) : List Char :=
  pyStripL (collapseWsAux false (l.map (fun c => keepAlnum (pyLowerChar c))))

/-- `normalise` on strings. -/
def normalise (s : String) : String :=
  ⟨normaliseL s.data⟩

/-- `trigrams` from `utils/text_processing.py`: the set of character
trigrams of the normalised text, or the singleton of the normalised
text itself when it is shorter than three characters. -/
def trigrams (text : String) : Finset String :=
  let t := normalise text
  if 3 ≤ t.data.length then
    ((List.range (t.data.length - 2)).map (fun i => String.mk ((t.data.drop i).take 3))).toFinset
  else {t}

/-- `jaccard` from `utils/text_processing.py`. -/
def jaccard (a b : Finset String) : ℚ :=
  if a = ∅ ∧ b = ∅ then 1
  else if (a ∪ b).card = 0 then 0
  else (a ∩ b).card / (a ∪ b).card

/-! ## Deduplicator: `ingestion/deduplicator.py`

The union-find `parent` dictionary and the `pair_sim` dictionary are
ordered association lists; the `find` helper performs the same
path-halving walk as the Python closure, threading the mutated parent
map through every call.  A fuel argument of `parent.length + 1` bounds
the walk; a parent chain can never be longer than the map itself. -/

/-- Lexicographic order on code points, Python string `<`. -/
def lexLtL : List Char → List Char → Bool
  | [], [] => false
  | [], _ :: _ => true
  | _ :: _, [] => false
  | a :: as, b :: bs => if a < b then true else if b < a then false else lexLtL as bs

/-- Python `min(a, b)` on strings. -/
def pyMinStr (a b : String) : String :=
  if lexLtL b.data a.data then b else a

/-- Python `max(a, b)` on strings. -/
def pyMaxStr (a b : String) : String :=
  if lexLtL a.data b.data then b else a

/-- `ScrapedContent` from `ingestion/scrapers/base.py`. -/
structure ScrapedContent where
  resource_id : String
  url : String := ""
  text_content : String := ""
  headings : List String := []
  code_blocks : List String := []
  links : List String := []
  content_hash : String := ""
  word_count : ℕ := 0
  scraped_at : ℤ := 0
deriving DecidableEq, Repr

/-- `DuplicateGroup` from `ingestion/deduplicator.py`. -/
structure DuplicateGroup where
  canonical_id : String
  duplicate_ids : List String := []
  similarity : ℚ := 0
deriving DecidableEq, Repr

/-- The `find` closure (path halving): follow parent pointers to the
root, re-pointing each visited node at its grandparent.  Returns the
root together with the updated parent map. -/
def ufFind : ℕ → List (String × String) → String → String × List (String × String)
  | 0, parent, x => (x, parent)
  | fuel + 1, parent, x =>
    let px := alGetD parent x x
    if px = x then (x, parent)
    else
      let gpx := alGetD parent px px
      ufFind fuel (alSet parent x gpx) gpx

/-- The `union` closure: merge the two roots, keeping the one with the
larger heading count (ties keep the first argument) as the new root. -/
def ufUnion (parent : List (String × String)) (headings : List (String × ℕ))
    (a b : String) : List (String × String) :=
  let fa := ufFind (parent.length + 1) parent a
  let fb := ufFind (fa.2.length + 1) fa.2 b
  let ra := fa.1
  let rb := fb.1
  if ra = rb then fb.2
  else if alGetD headings rb 0 ≤ alGetD headings ra 0 then alSet fb.2 rb ra
  else alSet fb.2 ra rb

/-- The index pairs `(i, j)` with `i < j` visited by the nested loops in
`find_duplicates`, in loop order, as element pairs. -/
def pairsOrder {α : Type} : List α → List (α × α)
  | [] => []
  | x :: xs => xs.map (fun y => (x, y)) ++ pairsOrder xs

/-- One iteration of the pair loop: compute the similarity and, when it
reaches the threshold, union the pair and record the similarity under
the loop-order key `(ids[i], ids[j])`. -/
def dedupStep (threshold : ℚ) (tri : List (String × Finset String))
    (headings : List (String × ℕ))
    (st : List (String × String) × List ((String × String) × ℚ))
    (pr : String × String) :
    List (String × String) × List ((String × String) × ℚ) :=
  let sim := jaccard (alGetD tri pr.1 ∅) (alGetD tri pr.2 ∅)
  if threshold ≤ sim then
    (ufUnion st.1 headings pr.1 pr.2, alSet st.2 (pr.1, pr.2) sim)
  else st

/-- The group-building loop: `groups_map.setdefault(root, []).append(rid)`
for every id, threading the parent map through the `find` calls. -/
def groupLoop : List String → List (String × String) → List (String × List String) →
    List (String × List String) × List (String × String)
  | [], parent, gm => (gm, parent)
  | rid :: rest, parent, gm =>
    let f := ufFind (parent.length + 1) parent rid
    groupLoop rest f.2 (alSet gm f.1 (alGetD gm f.1 [] ++ [rid]))

/-- The result loop of `find_duplicates`: clusters of two or more
members become `DuplicateGroup`s; the mean similarity is taken over the
canonical-to-duplicate pairs found in `pair_sim` under the
lexicographically ordered key `(min canonical d, max canonical d)`. -/
def buildGroups (pair_sim : List ((String × String) × ℚ))
    (gm : List (String × List String)) : List DuplicateGroup :=
  (gm.filter (fun p => 2 ≤ p.2.length)).map (fun p =>
    let canonical := p.1
    let dupes := p.2.filter (fun m => m ≠ canonical)
    let sims := dupes.filterMap (fun d => alGet pair_sim (pyMinStr canonical d, pyMaxStr canonical d))
    { canonical_id := canonical
      duplicate_ids := dupes
      similarity := if sims.length = 0 then 0 else sims.sum / sims.length })

/-- `ContentDeduplicator.find_duplicates` from
`ingestion/deduplicator.py`, with the constructor threshold as a
parameter (default `0.85`). -/
def find_duplicates (threshold : ℚ) (contents : List ScrapedContent) : List DuplicateGroup :=
  if contents.length < 2 then []
  else
    let tri := contents.foldl
      (fun m c => alSet m c.resource_id (trigrams ⟨c.text_content.data.take 5000⟩)) []
    let headings := contents.foldl
      (fun m c => alSet m c.resource_id c.headings.length) []
    let ids := tri.map (fun p => p.1)
    let st := (pairsOrder ids).foldl (dedupStep threshold tri headings)
      (ids.map (fun r => (r, r)), [])
    buildGroups st.2 (groupLoop ids st.1 []).1

/-! ## Curriculum models: `models/curriculum.py` -/

/-- `LearningObjective` from `models/curriculum.py`. -/
structure LearningObjective where
  description : String
  bloom_level : String := "understand"
deriving DecidableEq, Repr

/-- `ModuleUnit` from `models/curriculum.py`. -/
structure ModuleUnit where
  title : String
  description : String := ""
  resource_ids : List String := []
  objectives : List LearningObjective := []
  estimated_hours : ℚ := 0
  order : ℕ := 0
deriving DecidableEq, Repr

/-- `LearningPath` from `models/curriculum.py`. -/
structure LearningPath where
  id : String
  title : String
  description : String := ""
  target_audience : String := ""
  difficulty : DifficultyLevel := .beginner
  domains : List SkillDomain := []
  modules : List ModuleUnit := []
  total_estimated_hours : ℚ := 0
  prerequisites : List String := []
  created_at : ℤ := 0
  version : String := "1.0"
deriving DecidableEq, Repr

/-! ## Learning path builder: `curriculum/learning_path.py` -/

/-- Python `str.replace("_", " ")`. -/
def replaceUnderscore (s : String) : String :=
  ⟨s.data.map (fun c => if c = '_' then ' ' else c)⟩

/-- Python `str.title()` (ASCII fragment): uppercase every letter that
follows a non-letter, lowercase the other letters.  The flag records
whether the previous character was a letter. -/
def pyTitleAux : Bool → List Char → List Char
  | _, [] => []
  | prevAlpha, c :: cs =>
    if ('a' ≤ c ∧ c ≤ 'z') ∨ ('A' ≤ c ∧ c ≤ 'Z') then
      (if prevAlpha then pyLowerChar c else pyUpperChar c) :: pyTitleAux true cs
    else c :: pyTitleAux false cs

/-- Python `str.title()`. -/
def pyTitle (s : String) : String :=
  ⟨pyTitleAux false s.data⟩

/-- `DEPENDENCY_MAP` from `curriculum/learning_path.py`. -/
def DEPENDENCY_MAP : List (SkillDomain × List SkillDomain) :=
  [(.deep_learning, [.ml_basics]),
   (.nlp, [.deep_learning]),
   (.computer_vision, [.deep_learning]),
   (.mlops, [.ml_basics]),
   (.generative_ai, [.deep_learning, .nlp]),
   (.reinforcement_learning, [.ml_basics]),
   (.ai_project_management, [.ai_strategy]),
   (.ai_roi, [.ai_strategy]),
   (.ai_governance, [.ai_ethics])]

/-- `_AUDIENCE` from `curriculum/learning_path.py`. -/
def audienceOf : DifficultyLevel → String
  | .beginner => "Newcomers with no prior experience in this domain"
  | .intermediate => "Practitioners with foundational knowledge seeking deeper skills"
  | .advanced => "Experienced professionals aiming for expert-level mastery"

/-- `_path_id` from `curriculum/learning_path.py`. -/
def path_id (domain : SkillDomain) (difficulty : DifficultyLevel) : String :=
  (sha256Hex (domain.value ++ "-" ++ difficulty.value)).take 12

/-- `_bloom_from_difficulty` from `curriculum/learning_path.py`. -/
def bloom_from_difficulty : DifficultyLevel → String
  | .beginner => "understand"
  | .intermediate => "apply"
  | .advanced => "evaluate"

/-- The expression `r.estimated_hours or 2.0`: Python `or` falls through
to the default on `None` and on the falsy float `0.0`. -/
def hoursOf (r : Resource) : ℚ :=
  match r.estimated_hours with
  | none => 2
  | some h => if h = 0 then 2 else h

/-- The expression `r.provider or "unknown"`: the empty string is falsy. -/
def providerKey (r : Resource) : String :=
  if r.provider = "" then "unknown" else r.provider

/-- Stable insertion for a descending sort by a rational key: place `r`
before the first element whose key does not exceed it, so that equal
keys keep input order, as Python `sorted(..., reverse=True)` does. -/
def insertKeyDesc {α : Type} (key : α → ℚ) (r : α) : List α → List α
  | [] => [r]
  | x :: xs =>
    if key x ≤ key r then r :: x :: xs
    else x :: insertKeyDesc key r xs

/-- Stable descending sort by a rational key. -/
def sortKeyDesc {α : Type} (key : α → ℚ) (l : List α) : List α :=
  l.foldr (insertKeyDesc key) []

/-- `sorted(resources, key=lambda r: r.quality_score, reverse=True)`. -/
def sortScoreDesc (l : List Resource) : List Resource :=
  sortKeyDesc (fun r => r.quality_score) l

/-- The loop body of `_apply_diversity`: route each resource to the
selection list while its provider is under the cap, otherwise to the
deferred list. -/
def diversityLoop (maxPer : ℤ) :
    List (String × ℕ) → List Resource → List Resource → List Resource →
    List Resource × List Resource
  | _, result, deferred, [] => (result, deferred)
  | counts, result, deferred, r :: rest =>
    let p := providerKey r
    if Int.ofNat (alGetD counts p 0) < maxPer then
      diversityLoop maxPer (alSet counts p (alGetD counts p 0 + 1)) (result ++ [r]) deferred rest
    else
      diversityLoop maxPer counts result (deferred ++ [r]) rest

/-- `LearningPathBuilder._apply_diversity`, split into the initial
selection pass and the deferred tail. -/
def apply_diversity_split (diversity_cap : ℚ) (resources : List Resource) :
    List Resource × List Resource :=
  if resources.length = 0 then (resources, [])
  else
    diversityLoop (max 1 (pyInt (resources.length * diversity_cap))) [] [] [] resources

/-- `LearningPathBuilder._apply_diversity` from
`curriculum/learning_path.py`: the selection pass followed by the
deferred items. -/
def apply_diversity (diversity_cap : ℚ) (resources : List Resource) : List Resource :=
  (apply_diversity_split diversity_cap resources).1 ++
    (apply_diversity_split diversity_cap resources).2

/-- One `ModuleUnit` of `_build_path`, built from the chunk at position
`idx` of the selected resources. -/
def moduleForChunk (domain : SkillDomain) (difficulty : DifficultyLevel)
    (idx : ℕ) (chunk : List Resource) : ModuleUnit :=
  let order := idx + 1
  { title := "Module " ++ toString order ++ ": " ++ pyTitle (replaceUnderscore domain.value)
    description := pyTitle difficulty.value ++ "-level resources — part " ++ toString order
    resource_ids := chunk.map (fun r => r.id)
    objectives := chunk.map (fun r =>
      { description := pyTitle (bloom_from_difficulty difficulty) ++ " " ++ r.title
        bloom_level := bloom_from_difficulty difficulty })
    estimated_hours := (chunk.map hoursOf).sum
    order := order }

/-- The module-building loop of `_build_path`: one `ModuleUnit` per
chunk, with `module_order = len(modules) + 1` tracked by the index
argument. -/
def modulesFromChunks (domain : SkillDomain) (difficulty : DifficultyLevel) :
    ℕ → List (List Resource) → List ModuleUnit
  | _, [] => []
  | idx, c :: cs =>
    moduleForChunk domain difficulty idx c :: modulesFromChunks domain difficulty (idx + 1) cs

/-- The module list produced inside `_build_path` before the beginner
hour cap is applied: sort by score, enforce diversity, keep the top
`3 × max_per_module`, chunk into modules. -/
def buildModules (max_per_module : ℕ) (diversity_cap : ℚ) (domain : SkillDomain)
    (difficulty : DifficultyLevel) (resources : List Resource) : List ModuleUnit :=
  let selected := (apply_diversity diversity_cap (sortScoreDesc resources)).take
    (max_per_module * 3)
  modulesFromChunks domain difficulty 0 (chunkList max_per_module selected)

/-- Total of the module hours, `sum(m.estimated_hours for m in modules)`. -/
def sumHours (modules : List ModuleUnit) : ℚ :=
  (modules.map (fun m => m.estimated_hours)).sum

/-- The trim loop of `_build_path`: keep modules while the running total
stays within the cap, and stop at the first module that would exceed
it. -/
def trimModules (cap : ℚ) : ℚ → List ModuleUnit → List ModuleUnit
  | _, [] => []
  | running, m :: ms =>
    if running + m.estimated_hours ≤ cap then m :: trimModules cap (running + m.estimated_hours) ms
    else []

/-- The prerequisite list of `_build_path`. -/
def pathPrereqs (domain : SkillDomain) (difficulty : DifficultyLevel) : List String :=
  (alGetD DEPENDENCY_MAP domain []).map
    (fun d => "Complete the " ++ pyTitle (replaceUnderscore d.value) ++ " path") ++
  (if difficulty = .intermediate then
    ["Complete the Beginner path for " ++ pyTitle (replaceUnderscore domain.value)]
  else if difficulty = .advanced then
    ["Complete the Intermediate path for " ++ pyTitle (replaceUnderscore domain.value)]
  else [])

/-- `LearningPathBuilder._build_path` from `curriculum/learning_path.py`.
The three settings used by the method are parameters; `now` models the
`created_at` default factory of the pydantic model. -/
def build_path (max_per_module : ℕ) (max_hours_beginner diversity_cap : ℚ) (now : ℤ)
    (domain : SkillDomain) (difficulty : DifficultyLevel)
    (resources : List Resource) : LearningPath :=
  let modules0 := buildModules max_per_module diversity_cap domain difficulty resources
  let total0 := sumHours modules0
  let trim := difficulty = DifficultyLevel.beginner ∧ max_hours_beginner < total0
  let modules := if trim then trimModules max_hours_beginner 0 modules0 else modules0
  let total := if trim then sumHours modules else total0
  { id := path_id domain difficulty
    title := pyTitle (replaceUnderscore domain.value) ++ " — " ++ pyTitle difficulty.value
    description := "A " ++ difficulty.value ++ "-level learning path covering " ++
      replaceUnderscore domain.value ++ " using curated free and open-source resources."
    target_audience := audienceOf difficulty
    difficulty := difficulty
    domains := [domain]
    modules := modules
    total_estimated_hours := pythonRound 1 total
    prerequisites := pathPrereqs domain difficulty
    created_at := now
    version := "1.0" }

/-! ## Keyword scoring: `utils/text_processing.py` `keyword_score` -/

/-- Python `str.split()` with no argument: split on whitespace runs and
drop empty pieces.  The accumulator collects the current word in
reverse. -/
def splitWsAux : List Char → List Char → List (List Char)
  | acc, [] => if acc = [] then [] else [acc.reverse]
  | acc, c :: cs =>
    if isPySpace c then
      if acc = [] then splitWsAux [] cs else acc.reverse :: splitWsAux [] cs
    else splitWsAux (c :: acc) cs

/-- Python `s.split()`. -/
def pyWords (s : String) : List String :=
  (splitWsAux [] s.data).map String.mk

/-- Python `hay.count(needle)` for a non-empty needle: count
non-overlapping occurrences, scanning left to right and skipping past
each match. -/
def pyCountAux (needle : List Char) : ℕ → List Char → ℕ
  | 0, _ => 0
  | _, [] => 0
  | fuel + 1, c :: rest =>
    if needle.isPrefixOf (c :: rest) then 1 + pyCountAux needle fuel ((c :: rest).drop needle.length)
    else pyCountAux needle fuel rest

/-- Python `hay.count(needle)`; an empty needle counts `len(hay) + 1`
occurrences. -/
def pyCountOccurrences (hay needle : String) : ℕ :=
  if needle.data = [] then hay.data.length + 1
  else pyCountAux needle.data hay.data.length hay.data

/-- Python `needle in hay` substring test. -/
def strContainsL (needle : List Char) : List Char → Bool
  | [] => needle.isPrefixOf []
  | c :: rest => needle.isPrefixOf (c :: rest) || strContainsL needle rest

/-- Python `needle in hay` on strings. -/
def strContains (hay needle : String) : Bool :=
  strContainsL needle.data hay.data

/-- `keyword_score` from `utils/text_processing.py`: term-frequency hit
count over normalised words (single-word keywords count word
occurrences, multi-word keywords count substring occurrences), divided
by the word total, scaled by ten and clamped to `[0, 1]`. -/
def keyword_score (text : String) (keywords : List String) : ℚ :=
  let words := pyWords (normalise text)
  let total : ℕ := if words.length = 0 then 1 else words.length
  let hit_count : ℕ := (keywords.map (fun kw =>
    let kw_parts := pyWords (normalise kw)
    match kw_parts with
    | [w] => words.count w
    | _ => pyCountOccurrences (normalise text) (String.intercalate " " kw_parts))).sum
  min ((hit_count : ℚ) / total * 10) 1

/-! ## Taxonomy: `models/taxonomy.py` -/

/-- `TaxonomyNode` from `models/taxonomy.py`. -/
structure TaxonomyNode where
  domain : SkillDomain
  display_name : String
  subtopics : List String := []
  keywords : List String := []
deriving DecidableEq, Repr

/-- The static `TAXONOMY` table from `models/taxonomy.py`. -/
def TAXONOMY : List TaxonomyNode :=
  [{ domain := .ml_basics
     display_name := "Machine Learning Fundamentals"
     subtopics := ["supervised learning", "unsupervised learning", "feature engineering",
       "model evaluation", "cross-validation", "bias-variance tradeoff"]
     keywords := ["machine learning", "regression", "classification", "clustering",
       "decision tree", "random forest", "SVM", "scikit-learn", "gradient descent",
       "overfitting", "training set", "test set", "feature selection"] },
   { domain := .deep_learning
     display_name := "Deep Learning"
     subtopics := ["neural networks", "backpropagation", "convolutional networks",
       "recurrent networks", "attention mechanisms", "transfer learning"]
     keywords := ["deep learning", "neural network", "CNN", "RNN", "LSTM", "transformer",
       "PyTorch", "TensorFlow", "Keras", "backpropagation", "activation function",
       "dropout", "batch normalization", "GPU training"] },
   { domain := .nlp
     display_name := "Natural Language Processing"
     subtopics := ["text classification", "named entity recognition", "sentiment analysis",
       "machine translation", "question answering", "text generation"]
     keywords := ["NLP", "natural language processing", "tokenization", "embedding",
       "word2vec", "BERT", "GPT", "language model", "text mining",
       "corpus", "spaCy", "Hugging Face", "seq2seq"] },
   { domain := .computer_vision
     display_name := "Computer Vision"
     subtopics := ["image classification", "object detection", "image segmentation",
       "generative models for images", "video analysis"]
     keywords := ["computer vision", "image recognition", "object detection", "YOLO",
       "ResNet", "image segmentation", "OpenCV", "convolutional",
       "data augmentation", "bounding box"] },
   { domain := .mlops
     display_name := "MLOps & Production ML"
     subtopics := ["model deployment", "CI/CD for ML", "experiment tracking",
       "model monitoring", "feature stores", "ML pipelines"]
     keywords := ["MLOps", "model deployment", "MLflow", "Kubeflow", "model serving",
       "feature store", "experiment tracking", "model registry",
       "containerization", "Docker", "Kubernetes", "CI/CD"] },
   { domain := .generative_ai
     display_name := "Generative AI"
     subtopics := ["large language models", "prompt engineering", "fine-tuning",
       "RAG", "diffusion models", "AI agents"]
     keywords := ["generative AI", "LLM", "large language model", "prompt engineering",
       "fine-tuning", "RLHF", "diffusion model", "Stable Diffusion",
       "ChatGPT", "RAG", "retrieval augmented", "AI agent", "langchain"] },
   { domain := .reinforcement_learning
     display_name := "Reinforcement Learning"
     subtopics := ["Markov decision processes", "Q-learning", "policy gradient",
       "multi-agent RL", "reward shaping"]
     keywords := ["reinforcement learning", "RL", "Q-learning", "policy gradient",
       "reward", "environment", "agent", "Markov decision", "exploration",
       "exploitation", "OpenAI Gym"] },
   { domain := .data_engineering
     display_name := "Data Engineering for AI"
     subtopics := ["data pipelines", "data warehousing", "ETL",
       "data quality", "streaming data"]
     keywords := ["data engineering", "ETL", "data pipeline", "Apache Spark",
       "data warehouse", "data lake", "Airflow", "Kafka",
       "data quality", "data governance"] },
   { domain := .ai_strategy
     display_name := "AI Strategy"
     subtopics := ["AI roadmap", "AI maturity model", "build vs buy",
       "AI use case identification", "organizational readiness"]
     keywords := ["AI strategy", "digital transformation", "AI adoption",
       "AI roadmap", "AI maturity", "use case", "competitive advantage",
       "AI initiative", "executive", "business strategy"] },
   { domain := .ai_ethics
     display_name := "AI Ethics & Responsible AI"
     subtopics := ["fairness", "bias detection", "explainability",
       "privacy", "accountability", "AI safety"]
     keywords := ["AI ethics", "responsible AI", "fairness", "bias", "explainability",
       "interpretability", "XAI", "privacy", "GDPR", "accountability",
       "AI safety", "alignment", "transparency"] },
   { domain := .ai_project_management
     display_name := "AI Project Management"
     subtopics := ["ML project lifecycle", "team structure", "agile for AI",
       "stakeholder management", "risk management"]
     keywords := ["AI project management", "ML lifecycle", "data science team",
       "agile", "scrum", "stakeholder", "risk management",
       "project planning", "cross-functional", "delivery"] },
   { domain := .ai_roi
     display_name := "AI Return on Investment"
     subtopics := ["cost-benefit analysis", "AI value measurement",
       "total cost of ownership", "scaling AI"]
     keywords := ["AI ROI", "return on investment", "cost-benefit", "business value",
       "total cost", "scaling AI", "monetization", "KPI",
       "business case", "value measurement"] },
   { domain := .ai_governance
     display_name := "AI Governance & Compliance"
     subtopics := ["model risk management", "regulatory compliance",
       "AI audit", "documentation standards"]
     keywords := ["AI governance", "model risk", "compliance", "regulation",
       "audit", "documentation", "EU AI Act", "model card",
       "risk assessment", "policy"] }]

/-! ## Evaluator: `discovery/evaluator.py`

Scores are exact rationals.  The single irrational ingredient,
`math.log10(stars + 1)`, is passed in as the function parameter
`log10f`; every theorem below either holds for all `log10f` or uses an
input with `stars = 0`, where the community-signal branch is not
taken and the parameter is never consulted. -/

/-- `SearchResult` from `discovery/searchers/base.py`. -/
structure SearchResult where
  url : String
  title : String
  snippet : String := ""
  source : String := ""
  raw : RawMeta := {}
deriving DecidableEq, Repr

/-- `REPUTABLE_PROVIDERS` from `discovery/evaluator.py`, in insertion
order. -/
def REPUTABLE_PROVIDERS : List (String × ℚ) :=
  [("fast.ai", 0.20), ("deeplearning.ai", 0.20), ("stanford", 0.20), ("mit", 0.20),
   ("google", 0.15), ("microsoft", 0.15), ("huggingface", 0.18), ("openai", 0.15),
   ("coursera", 0.12), ("kaggle", 0.14), ("arxiv", 0.10), ("github", 0.10)]

/-- `_detect_provider` from `discovery/evaluator.py`: the first
reputable provider name occurring in the lower-cased `url + " " + title`. -/
def detect_provider (url title : String) : String :=
  let combined := pyLower (url ++ " " ++ title)
  match REPUTABLE_PROVIDERS.find? (fun p => strContains combined p.1) with
  | some p => p.1
  | none => ""

/-- `_detect_content_type` from `discovery/evaluator.py`. -/
def detect_content_type (url snippet : String) : ContentType :=
  let c := pyLower (url ++ " " ++ snippet)
  if ["course", "mooc", "syllabus", "lecture"].any (strContains c) then .course
  else if ["tutorial", "how to", "step by step", "guide"].any (strContains c) then .tutorial
  else if strContains c "arxiv" || strContains c "paper" then .paper
  else if ["video", "youtube", "watch"].any (strContains c) then .video_series
  else if ["book", "textbook", "ebook"].any (strContains c) then .book
  else if ["notebook", "colab", "jupyter"].any (strContains c) then .interactive_notebook
  else if strContains c "documentation" || strContains c "docs" then .documentation
  else .tutorial

/-- `_detect_difficulty` from `discovery/evaluator.py`. -/
def detect_difficulty (snippet : String) : DifficultyLevel :=
  let s := pyLower snippet
  if ["advanced", "expert", "research", "state-of-the-art"].any (strContains s) then .advanced
  else if ["intermediate", "practical", "hands-on project"].any (strContains s) then .intermediate
  else .beginner

/-- `_detect_domains` from `discovery/evaluator.py`: keyword-score every
taxonomy node, keep scores above `0.02`, stable-sort descending, and
take the top three domains. -/
def detect_domains (text : String) : List SkillDomain :=
  let scored := TAXONOMY.filterMap (fun node =>
    let score := keyword_score text node.keywords
    if (0.02 : ℚ) < score then some (score, node.domain) else none)
  ((sortKeyDesc (fun p => p.1) scored).take 3).map (fun p => p.2)

/-- The `best_kw` generator expression: the maximum keyword score over
the taxonomy nodes whose domain was retained.  Keyword scores are
nonnegative, so folding `max` from zero agrees with Python `max` on the
nonempty generator. -/
def bestKw (text : String) (domains : List SkillDomain) : ℚ :=
  ((TAXONOMY.filter (fun n => n.domain ∈ domains)).map
    (fun n => keyword_score text n.keywords)).foldr max 0

/-- The `richness` table in `ResourceEvaluator.evaluate`; it covers all
nine content types, so the Python `.get(ctype, 0.05)` default is
unreachable. -/
def richnessOf : ContentType → ℚ
  | .course => 0.15
  | .interactive_notebook => 0.14
  | .book => 0.12
  | .video_series => 0.11
  | .tutorial => 0.10
  | .paper => 0.08
  | .documentation => 0.07
  | .blog_series => 0.06
  | .certification_prep => 0.10

/-- `ResourceEvaluator.evaluate` from `discovery/evaluator.py`.  `now`
is the evaluation instant: it feeds the freshness age computation
`(datetime.now(timezone.utc) - dt).days` and the `discovered_at`
default factory of the constructed `Resource`. -/
def evaluate (log10f : ℕ → ℚ) (now : ℤ) (result : SearchResult) : Resource :=
  let combined_text := result.title ++ " " ++ result.snippet
  let provider := detect_provider result.url result.title
  let score1 : ℚ := alGetD REPUTABLE_PROVIDERS provider 0
  let domains := detect_domains combined_text
  let score2 : ℚ := if domains = [] then 0 else min (bestKw combined_text domains) 0.25
  let ctype := detect_content_type result.url result.snippet
  let score3 : ℚ := richnessOf ctype
  let score4 : ℚ :=
    if 0 < result.raw.stars then min (log10f (result.raw.stars + 1).toNat / 35) 0.15 else 0
  let score5 : ℚ :=
    match result.raw.updated_at with
    | none => 0
    | some dt =>
      if now - dt < 365 then 0.15
      else if now - dt < 730 then 0.08
      else 0
  let score6 : ℚ :=
    if 50 < result.snippet.data.length then 0.10
    else if 10 < result.snippet.data.length then 0.05
    else 0
  let score := min (score1 + score2 + score3 + score4 + score5 + score6) 1
  { id := resource_id result.url
    url := result.url
    title := result.title
    description := result.snippet
    provider := provider
    domains := domains
    content_type := ctype
    difficulty := detect_difficulty result.snippet
    quality_score := pythonRound 3 score
    discovered_at := now
    raw_metadata := result.raw }

/-! ## Discovery agent: `discovery/agent.py`

A searcher is its name together with its `search` coroutine, modelled
as a function returning either a result list or an exception value. -/

/-- A `BaseSearcher`: `search(query, max_results)` either returns
results or raises, modelled by `Except`. -/
structure Searcher where
  name : String
  search : String → ℕ → Except String (List SearchResult)

/-- `DiscoveryAgent._search_one`: run one searcher/query combination,
catching every exception and turning it into an empty result list. -/
def search_one (s : Searcher) (query : String) (max_results : ℕ) : List SearchResult :=
  match s.search query max_results with
  | .ok rs => rs
  | .error _ => []

/-- The `github_searchers` filter in `DiscoveryAgent.run`. -/
def githubSearchers (searchers : List Searcher) : List Searcher :=
  searchers.filter (fun s => s.name = "github")

/-- The fan-out task list of `DiscoveryAgent.run` and its gathered
results: every general query against every searcher, then every
GitHub-specific query against the searchers named `github`.
`asyncio.gather` preserves task order. -/
def discoveryTasks (searchers : List Searcher) (queries github_queries : List String)
    (max_results : ℕ) : List (List SearchResult) :=
  (queries.flatMap (fun q => searchers.map (fun s => search_one s q max_results))) ++
  (github_queries.flatMap (fun q =>
    (githubSearchers searchers).map (fun s => search_one s q max_results)))

/-- `total_tasks` in `DiscoveryAgent.run`, reported as
`queries_executed`. -/
def queries_executed (searchers : List Searcher) (queries github_queries : List String) : ℕ :=
  queries.length * searchers.length +
    github_queries.length * (githubSearchers searchers).length

/-! ## Concrete instances used by the closed statements below -/

/-- An empty-result searcher with a given name: `search` always succeeds
with no results. -/
def emptySearcher (nm : String) : Searcher :=
  { name := nm, search := fun _ _ => Except.ok [] }

/-- A searcher that always returns one result. -/
def okSearcher : Searcher :=
  { name := "github", search := fun q _ => Except.ok [{ url := "https://github.com/" ++ q, title := q }] }

/-- A searcher whose `search` always raises. -/
def failingSearcher : Searcher :=
  { name := "github", search := fun _ _ => Except.error "boom" }

/-- A resource submitted twice in the upsert scenarios. -/
def rEx : Resource :=
  { id := "r1", url := "https://example.com/x", title := "X",
    quality_score := 1/2, discovered_at := 0 }

/-- The URL of the idempotence witness scenario. -/
def subUrl : String := "https://example.com"

/-- First submission of `subUrl`. -/
def sub1 : Resource :=
  { id := resource_id subUrl, url := subUrl, title := "first",
    quality_score := 1/2, discovered_at := 10 }

/-- Second submission of `subUrl`, with a higher score. -/
def sub2 : Resource :=
  { id := resource_id subUrl, url := subUrl, title := "second",
    quality_score := 7/10, discovered_at := 20 }

/-- Scraped document A of the dedup witness scenario. -/
def docA : ScrapedContent :=
  { resource_id := "A", text_content := "the quick brown fox jumps over the lazy dog",
    headings := ["h1", "h2"] }

/-- Scraped document B: same text as A up to punctuation, fewer headings. -/
def docB : ScrapedContent :=
  { resource_id := "B", text_content := "the quick brown fox jumps over the lazy dog!",
    headings := ["h"] }

/-- Scraped document C: unrelated text. -/
def docC : ScrapedContent :=
  { resource_id := "C", text_content := "completely different text about something else entirely" }

/-- Two identical documents whose ids are in reverse lexicographic
order relative to their input position. -/
def docLexB : ScrapedContent := { resource_id := "b", text_content := "hello world" }

/-- See `docLexB`. -/
def docLexA : ScrapedContent := { resource_id := "a", text_content := "hello world" }

/-- A two-character document. -/
def docShort : ScrapedContent := { resource_id := "x", text_content := "ab" }

/-- A document whose text normalises to the same two characters as
`docShort`, but only after 5000 leading spaces. -/
def docLong : ScrapedContent :=
  { resource_id := "y", text_content := ⟨List.replicate 5000 ' ' ++ ['a', 'b']⟩ }

/-- A second two-character document: distinct id, different raw text,
same normalisation as `docShort`. -/
def docShort2 : ScrapedContent := { resource_id := "z", text_content := "AB!" }

/-- Two providerless-but-distinct resources from provider X. -/
def rX1 : Resource :=
  { id := "x1", url := "u1", title := "t1", provider := "X",
    quality_score := 1, discovered_at := 0 }

/-- See `rX1`. -/
def rX2 : Resource :=
  { id := "x2", url := "u2", title := "t2", provider := "X",
    quality_score := 1, discovered_at := 0 }

/-- A high-scoring resource with 2.25 estimated hours. -/
def rHours1 : Resource :=
  { id := "ra", url := "ua", title := "ta", provider := "A",
    quality_score := 9/10, estimated_hours := some (9/4), discovered_at := 0 }

/-- A lower-scoring resource with 5 estimated hours. -/
def rHours2 : Resource :=
  { id := "rb", url := "ub", title := "tb", provider := "B",
    quality_score := 1/2, estimated_hours := some 5, discovered_at := 0 }

/-- A search result carrying no recognisable provider, keywords or
content-type cues, zero stars, and an update instant at day 0. -/
def srPlain : SearchResult :=
  { url := "https://example.com/z", title := "zzz", snippet := "",
    raw := { stars := 0, updated_at := some 0 } }

/-- A stand-in for `math.log10(stars + 1)`; `srPlain` has zero stars, so
the community-signal branch never consults it. -/
def log10Zero : ℕ → ℚ := fun _ => 0

/-! # Theorems

Helper lemmas first, then one theorem per claim (with witnesses and
counterexamples where required). -/

/-- The tabulated round constants agree with the cube-root formula. -/
theorem shaK_from_primes :
    shaK = sha256Primes.map (fun p => icbrt (p <<< 96) - (icbrt p) <<< 32) := by
  decide

/-- The tabulated initial state agrees with the square-root formula. -/
theorem shaH0_from_primes :
    shaH0 = (sha256Primes.take 8).map (fun p => isqrt (p <<< 64) - (isqrt p) <<< 32) := by
  decide

theorem alGet_alSet_self {κ β : Type} [DecidableEq κ] (l : List (κ × β)) (k : κ) (v : β) :
    alGet (alSet l k v) k = some v := by
  induction l with
  | nil => simp [alSet, alGet]
  | cons hd tl ih =>
    obtain ⟨k', v'⟩ := hd
    by_cases h : k' = k <;> simp [alSet, alGet, h, ih]

theorem alGet_alSet_other {κ β : Type} [DecidableEq κ] (l : List (κ × β)) (k k' : κ) (v : β)
    (h : k ≠ k') : alGet (alSet l k v) k' = alGet l k' := by
  induction l with
  | nil => simp [alSet, alGet, h]
  | cons hd tl ih =>
    obtain ⟨k0, v0⟩ := hd
    by_cases h0 : k0 = k
    · subst h0
      simp [alSet, alGet, h]
    · simp [alSet, alGet, h0, ih]

theorem alCountKey_alSet {κ β : Type} [DecidableEq κ] (l : List (κ × β)) (k : κ) (v : β) :
    alCountKey (alSet l k v) k = if alHasKey l k then alCountKey l k else alCountKey l k + 1 := by
  induction l with
  | nil => simp [alSet, alCountKey, alHasKey, alGet]
  | cons hd tl ih =>
    obtain ⟨k0, v0⟩ := hd
    by_cases h0 : k0 = k
    · subst h0
      simp [alSet, alCountKey, alHasKey, alGet, List.countP_cons]
    · simp only [alSet, if_neg h0, alCountKey, List.countP_cons, alHasKey, alGet, h0,
        if_false, decide_eq_true_eq, if_neg, add_zero] at *
      exact ih

theorem alCountKey_eq_zero_of_alGet_none {κ β : Type} [DecidableEq κ]
    (l : List (κ × β)) (k : κ) (h : alGet l k = none) : alCountKey l k = 0 := by
  induction l with
  | nil => simp [alCountKey]
  | cons hd tl ih =>
    obtain ⟨k0, v0⟩ := hd
    by_cases h0 : k0 = k
    · simp [alGet, h0] at h
    · simp only [alGet, if_neg h0] at h
      have h2 := ih h
      simp only [alCountKey, List.countP_cons] at *
      simp [h0, h2]

/-! ### C2: the return value of `upsert` -/

/-- C2, counterexample: the claim says `upsert` returns `true` for every
accepted resource, including a re-submission that merges with an
existing record.  In the code the flag is `is_new`: re-submitting `rEx`
(score `0.5`, at or above the threshold `0.3`, hence accepted and
merged) returns `false`. -/
theorem upsert_merge_returns_false :
    (upsert (upsert [] rEx (3/10)).2 rEx (3/10)).1 = false ∧
    (3/10 : ℚ) ≤ rEx.quality_score := by
  exact ⟨by decide, by decide⟩

/-- C2 (amended): `upsert(resource, minScore)` returns `false` for every
resource below `minScore` (dropped without changing the catalog), and
for an accepted resource it returns `true` exactly when the id is new to
the catalog; an accepted re-submission that merges returns `false`. -/
theorem upsert_flag_iff_accepted_and_new (cache : List (String × Resource))
    (r : Resource) (min_score : ℚ) :
    ((upsert cache r min_score).1 = true ↔
      min_score ≤ r.quality_score ∧ alHasKey cache r.id = false) ∧
    (r.quality_score < min_score → (upsert cache r min_score).2 = cache) := by
  unfold upsert
  by_cases h : r.quality_score < min_score
  · rw [if_pos h]
    constructor
    · constructor
      · intro hv
        exact absurd hv (by simp)
      · rintro ⟨hle, -⟩
        exact absurd h (not_lt.mpr hle)
    · intro _
      rfl
  · rw [if_neg h]
    refine ⟨?_, fun hlt => absurd hlt h⟩
    show (! alHasKey cache r.id) = true ↔ _
    constructor
    · intro hnew
      exact ⟨not_lt.mp h, by simpa using hnew⟩
    · rintro ⟨-, hnew⟩
      simp [hnew]

/-! ### C3: resource identity as a function of the canonical URL -/

/-- C3, counterexample: the claim quantifies over every pair of URL
strings that agree after case-folding and trailing-slash trimming.  The
code first strips leading and trailing whitespace, so `"a /"` and
`"a "` agree after fold-and-trim (both give `"a "`) yet receive
different ids: the first hashes `"a "`, the second hashes `"a"`. -/
theorem resource_id_strip_sensitivity :
    foldTrimUrl "a /" = foldTrimUrl "a " ∧
    resource_id "a /" ≠ resource_id "a " := by
  exact ⟨by decide, by decide⟩

/-- C3 (amended): for URL strings carrying no leading or trailing
whitespace, the resource id is a pure function of the URL after
case-folding and trailing-slash trimming: if two such URLs agree after
fold-and-trim, their derived ids are equal. -/
theorem resource_id_pure_in_canonical_url (u₁ u₂ : String)
    (h₁ : pyStrip u₁ = u₁) (h₂ : pyStrip u₂ = u₂)
    (h : foldTrimUrl u₁ = foldTrimUrl u₂) :
    resource_id u₁ = resource_id u₂ := by
  unfold resource_id canonicalUrl
  rw [h₁, h₂]
  unfold foldTrimUrl at h
  rw [h]

/-- C3, witness: the spec example, `https://EXAMPLE.com/Path/` and
`https://example.com/path` receive equal ids. -/
theorem resource_id_pure_in_canonical_url_witness :
    pyStrip "https://EXAMPLE.com/Path/" = "https://EXAMPLE.com/Path/" ∧
    pyStrip "https://example.com/path" = "https://example.com/path" ∧
    foldTrimUrl "https://EXAMPLE.com/Path/" = foldTrimUrl "https://example.com/path" ∧
    resource_id "https://EXAMPLE.com/Path/" = resource_id "https://example.com/path" :=
  ⟨by decide, by decide, by decide,
    resource_id_pure_in_canonical_url _ _ (by decide) (by decide) (by decide)⟩

/-! ### C5: the similarity field of a duplicate group -/

/-- C5: the claim says the similarity of a returned group equals the
mean of the pairwise trigram-Jaccard similarities of its members
regardless of input order.  `find_duplicates` stores pair similarities
under the input-order key `(ids[i], ids[j])` but reads them back under
the lexicographically ordered key `(min, max)`: two identical documents
supplied with ids in reverse lexicographic order (`"b"` before `"a"`)
produce a group with similarity `0.0` although their pairwise
similarity is `1.0`; the same documents in the other order produce
`1.0`.  The normalised read key shows the write was meant to be
normalised too: the code, not the claim, is at fault. -/
theorem find_duplicates_similarity_order_bug :
    jaccard (trigrams docLexB.text_content) (trigrams docLexA.text_content) = 1 ∧
    find_duplicates (17/20) [docLexB, docLexA] = [⟨"b", ["a"], 0⟩] ∧
    find_duplicates (17/20) [docLexA, docLexB] = [⟨"a", ["b"], 1⟩] := by
  exact ⟨by decide, by decide, by decide⟩

/-! ### C6: provider diversity defers but never drops -/

theorem diversityLoop_append_perm (maxPer : ℤ) :
    ∀ (rest : List Resource) (counts : List (String × ℕ)) (result deferred : List Resource),
      ((diversityLoop maxPer counts result deferred rest).1 ++
        (diversityLoop maxPer counts result deferred rest).2).Perm
        (result ++ deferred ++ rest) := by
  intro rest
  induction rest with
  | nil =>
    intro counts result deferred
    simp [diversityLoop]
  | cons r rest ih =>
    intro counts result deferred
    unfold diversityLoop
    by_cases h : Int.ofNat (alGetD counts (providerKey r) 0) < maxPer
    · simp only [if_pos h]
      refine (ih _ _ _).trans ?_
      have : (result ++ [r]) ++ deferred ++ rest = result ++ (r :: (deferred ++ rest)) := by
        simp
      rw [this]
      have hmid : (r :: (deferred ++ rest)).Perm (deferred ++ r :: rest) :=
        List.perm_middle.symm
      calc (result ++ (r :: (deferred ++ rest))).Perm
            (result ++ (deferred ++ r :: rest)) := hmid.append_left result
        _ = _ := by rw [List.append_assoc]
    · simp only [if_neg h]
      refine (ih _ _ _).trans ?_
      have : result ++ (deferred ++ [r]) ++ rest = result ++ deferred ++ r :: rest := by
        simp
      rw [this]

theorem diversityLoop_count_le (maxPer : ℤ) (p : String) :
    ∀ (rest : List Resource) (counts : List (String × ℕ)) (result deferred : List Resource),
      (∀ q : String, Int.ofNat (alGetD counts q 0) =
          (result.countP (fun r => providerKey r = q) : ℤ) ∧
        Int.ofNat (alGetD counts q 0) ≤ maxPer) →
      ((diversityLoop maxPer counts result deferred rest).1.countP
        (fun r => providerKey r = p) : ℤ) ≤ maxPer := by
  intro rest
  induction rest with
  | nil =>
    intro counts result deferred hinv
    unfold diversityLoop
    have h := hinv p
    simpa [h.1.symm] using h.2
  | cons r rest ih =>
    intro counts result deferred hinv
    unfold diversityLoop
    by_cases h : Int.ofNat (alGetD counts (providerKey r) 0) < maxPer
    · rw [if_pos h]
      refine ih _ _ _ ?_
      intro q
      by_cases hq : providerKey r = q
      · subst hq
        have hbase := hinv (providerKey r)
        have h1 := hbase.1
        constructor
        · rw [alGetD, alGet_alSet_self, Option.getD_some, List.countP_append]
          have hone : List.countP (fun r' => decide (providerKey r' = providerKey r)) [r] = 1 := by
            simp
          rw [hone]
          simp only [Int.ofNat_eq_natCast] at h1 ⊢
          push_cast at h1 ⊢
          omega
        · rw [alGetD, alGet_alSet_self, Option.getD_some]
          simp only [Int.ofNat_eq_natCast] at h ⊢
          push_cast at h ⊢
          omega
      · have hbase := hinv q
        constructor
        · rw [alGetD, alGet_alSet_other _ _ _ _ hq]
          have : result.countP (fun r' => providerKey r' = q) =
              (result ++ [r]).countP (fun r' => providerKey r' = q) := by
            simp [List.countP_append, hq]
          rw [← this]
          exact hbase.1
        · rw [alGetD, alGet_alSet_other _ _ _ _ hq]
          exact hbase.2
    · rw [if_neg h]
      exact ih _ _ _ hinv

/-- C6, counterexample: the claim bounds every provider by
`diversityCap × listSize` in the initial pass.  With two resources from
provider X and cap `0.4` the bound would be `0.8`, yet the selection
loop admits `max(1, int(0.8)) = 1` X item: one item, exceeding `0.8`. -/
theorem diversity_cap_small_bucket_exceeded :
    ((apply_diversity_split (2/5) [rX1, rX2]).1.countP
      (fun r => providerKey r = "X") : ℚ) > (2/5) * 2 := by
  decide

/-- C6 (amended): `_apply_diversity` returns a permutation of its input
(the deferred items are appended at the tail, nothing is dropped), and
in the initial selection pass no provider contributes more than
`max(1, int(diversityCap × listSize))` items — the spec formula
`diversityCap × listSize` holds whenever it is at least one, in
particular in the 10-resources/8-X/cap-0.4 scenario where the bound is
4. -/
theorem apply_diversity_defers_never_drops (cap : ℚ) (rs : List Resource) :
    (apply_diversity cap rs).Perm rs ∧
    ∀ p : String,
      (((apply_diversity_split cap rs).1.countP (fun r => providerKey r = p)) : ℤ) ≤
        max 1 (pyInt (rs.length * cap)) := by
  constructor
  · unfold apply_diversity apply_diversity_split
    by_cases h : rs.length = 0
    · rw [List.length_eq_zero] at h
      subst h
      simp
    · rw [if_neg h]
      simpa using diversityLoop_append_perm (max 1 (pyInt (rs.length * cap))) rs [] [] []
  · intro p
    unfold apply_diversity_split
    by_cases h : rs.length = 0
    · rw [List.length_eq_zero] at h
      subst h
      simp
    · rw [if_neg h]
      refine diversityLoop_count_le _ p rs [] [] [] ?_
      intro q
      have hmax : (0:ℤ) ≤ max 1 (pyInt (rs.length * cap)) :=
        le_trans zero_le_one (le_max_left _ _)
      constructor
      · simp [alGetD, alGet]
      · simp only [alGetD, alGet, Option.getD_none]
        simp only [Int.ofNat_eq_natCast, Nat.cast_zero]
        exact hmax

/-! ### C7: the beginner hour cap -/

theorem sumHours_cons (m : ModuleUnit) (ms : List ModuleUnit) :
    sumHours (m :: ms) = m.estimated_hours + sumHours ms := by
  simp [sumHours]

theorem sumHours_nonneg (ms : List ModuleUnit)
    (h : ∀ m ∈ ms, 0 ≤ m.estimated_hours) : 0 ≤ sumHours ms := by
  refine List.sum_nonneg ?_
  intro x hx
  obtain ⟨m, hm, rfl⟩ := List.mem_map.mp hx
  exact h m hm

/-- The trim loop keeps exactly the longest prefix whose cumulative
hours (on top of the running total) stay within the cap, provided every
module has nonnegative hours. -/
theorem trimModules_take (cap : ℚ) :
    ∀ (ms : List ModuleUnit) (running : ℚ),
      (∀ m ∈ ms, 0 ≤ m.estimated_hours) → running ≤ cap →
      ∃ K, trimModules cap running ms = ms.take K ∧
        running + sumHours (ms.take K) ≤ cap ∧
        ∀ j, j ≤ ms.length → running + sumHours (ms.take j) ≤ cap → j ≤ K := by
  intro ms
  induction ms with
  | nil =>
    intro running _ hrun
    refine ⟨0, by simp [trimModules], ?_, ?_⟩
    · simpa [sumHours]
    · intro j hj _
      simpa using hj
  | cons m ms ih =>
    intro running hnn hrun
    by_cases hfit : running + m.estimated_hours ≤ cap
    · obtain ⟨K', e1, e2, e3⟩ := ih (running + m.estimated_hours)
        (fun x hx => hnn x (List.mem_cons_of_mem m hx)) hfit
      refine ⟨K' + 1, ?_, ?_, ?_⟩
      · rw [List.take_succ_cons]
        unfold trimModules
        rw [if_pos hfit, e1]
      · rw [List.take_succ_cons, sumHours_cons]
        linarith
      · intro j hj hsum
        cases j with
        | zero => omega
        | succ j' =>
          rw [List.take_succ_cons, sumHours_cons] at hsum
          have : j' ≤ K' := e3 j' (by simpa using hj) (by linarith)
          omega
    · refine ⟨0, ?_, by simpa [sumHours], ?_⟩
      · unfold trimModules
        rw [if_neg hfit]
        simp
      · intro j hj hsum
        cases j with
        | zero => omega
        | succ j' =>
          rw [List.take_succ_cons, sumHours_cons] at hsum
          have hrest : 0 ≤ sumHours (ms.take j') := by
            refine sumHours_nonneg _ ?_
            intro x hx
            exact hnn x (List.mem_cons_of_mem m (List.mem_of_mem_take hx))
          exact absurd (by linarith : running + m.estimated_hours ≤ cap) hfit

theorem mem_chunkListGo {α : Type} (n : ℕ) :
    ∀ (fuel : ℕ) (l : List α) (c : List α), c ∈ chunkListGo n fuel l →
      ∀ x ∈ c, x ∈ l := by
  intro fuel
  induction fuel with
  | zero =>
    intro l c hc
    simp [chunkListGo] at hc
  | succ fuel ih =>
    intro l c hc x hx
    cases l with
    | nil => simp [chunkListGo] at hc
    | cons a as =>
      unfold chunkListGo at hc
      rcases List.mem_cons.mp hc with h | h
      · subst h
        exact List.mem_of_mem_take hx
      · exact List.drop_subset _ _ (ih _ _ h x hx)

theorem mem_modulesFromChunks (domain : SkillDomain) (difficulty : DifficultyLevel) :
    ∀ (idx : ℕ) (cs : List (List Resource)) (m : ModuleUnit),
      m ∈ modulesFromChunks domain difficulty idx cs →
      ∃ j c, c ∈ cs ∧ m = moduleForChunk domain difficulty j c := by
  intro idx cs
  induction cs generalizing idx with
  | nil =>
    intro m hm
    simp [modulesFromChunks] at hm
  | cons c cs ih =>
    intro m hm
    unfold modulesFromChunks at hm
    rcases List.mem_cons.mp hm with h | h
    · exact ⟨idx, c, List.mem_cons_self _ _, h⟩
    · obtain ⟨j, c', hc', he⟩ := ih (idx + 1) m h
      exact ⟨j, c', List.mem_cons_of_mem _ hc', he⟩

theorem insertKeyDesc_perm {α : Type} (key : α → ℚ) (r : α) :
    ∀ l : List α, (insertKeyDesc key r l).Perm (r :: l) := by
  intro l
  induction l with
  | nil => simp [insertKeyDesc]
  | cons x xs ih =>
    unfold insertKeyDesc
    by_cases h : key x ≤ key r
    · rw [if_pos h]
    · rw [if_neg h]
      exact (ih.cons x).trans (List.Perm.swap r x xs)

theorem sortKeyDesc_perm {α : Type} (key : α → ℚ) (l : List α) :
    (sortKeyDesc key l).Perm l := by
  induction l with
  | nil => simp [sortKeyDesc]
  | cons x xs ih =>
    unfold sortKeyDesc at *
    exact (insertKeyDesc_perm key x _).trans (ih.cons x)

theorem apply_diversity_perm (cap : ℚ) (rs : List Resource) :
    (apply_diversity cap rs).Perm rs := by
  unfold apply_diversity apply_diversity_split
  by_cases h : rs.length = 0
  · rw [List.length_eq_zero] at h
    subst h
    simp
  · rw [if_neg h]
    simpa using diversityLoop_append_perm (max 1 (pyInt (rs.length * cap))) rs [] [] []

/-- Every module produced by `buildModules` sums hours of resources
drawn from the input list, so nonnegative per-resource hours give
nonnegative module hours. -/
theorem buildModules_hours_nonneg (max_per_module : ℕ) (diversity_cap : ℚ)
    (domain : SkillDomain) (difficulty : DifficultyLevel) (rs : List Resource)
    (hnn : ∀ r ∈ rs, 0 ≤ hoursOf r) :
    ∀ m ∈ buildModules max_per_module diversity_cap domain difficulty rs,
      0 ≤ m.estimated_hours := by
  intro m hm
  unfold buildModules at hm
  obtain ⟨j, c, hc, rfl⟩ := mem_modulesFromChunks domain difficulty 0 _ m hm
  show 0 ≤ (c.map hoursOf).sum
  refine List.sum_nonneg ?_
  intro x hx
  obtain ⟨r, hr, rfl⟩ := List.mem_map.mp hx
  have hr2 : r ∈ (apply_diversity diversity_cap (sortScoreDesc rs)).take (max_per_module * 3) := by
    unfold chunkList at hc
    by_cases hz : max_per_module = 0
    · rw [if_pos hz] at hc
      simp at hc
    · rw [if_neg hz] at hc
      exact mem_chunkListGo max_per_module _ _ c hc r hr
  have hr3 : r ∈ rs := by
    have hdiv := (apply_diversity_perm diversity_cap (sortScoreDesc rs)).mem_iff.mp
      (List.mem_of_mem_take hr2)
    rw [sortScoreDesc] at hdiv
    exact (sortKeyDesc_perm (fun r => r.quality_score) rs).mem_iff.mp hdiv
  exact hnn r hr3

/-- C7, counterexample: the claim says the trimmed path's
`total_estimated_hours` equals the retained prefix's sum.  With
`max_per_module = 1`, cap `3`, and resources of `2.25` and `5` hours,
the retained prefix sums to `2.25` but the path records
`round(2.25, 1) = 2.2` (Python rounds half to even at one decimal). -/
theorem beginner_cap_total_rounded_not_exact :
    (build_path 1 3 (2/5) 0 .ml_basics .beginner [rHours1, rHours2]).total_estimated_hours
      = 11/5 ∧
    ((build_path 1 3 (2/5) 0 .ml_basics .beginner [rHours1, rHours2]).modules.map
      (fun m => m.estimated_hours)) = [9/4] ∧
    (11/5 : ℚ) ≠ 9/4 := by
  exact ⟨by decide, by decide, by decide⟩

/-- C7 (amended): for every beginner path whose pre-trim module hours
exceed the (nonnegative) configured cap, given nonnegative per-resource
hour estimates, the builder retains exactly the longest prefix of the
original module sequence whose cumulative hours stay at or under the
cap, and the path's `total_estimated_hours` equals that prefix's sum
rounded to one decimal digit (Python `round`, half to even). -/
theorem beginner_hour_cap_longest_fitting_pre (max_per_module : ℕ)
    (cap diversity_cap : ℚ) (now : ℤ) (domain : SkillDomain) (rs : List Resource)
    (hcap : 0 ≤ cap)
    (hnn : ∀ r ∈ rs, 0 ≤ hoursOf r)
    (hover : cap < sumHours (buildModules max_per_module diversity_cap domain .beginner rs)) :
    ∃ K,
      (build_path max_per_module cap diversity_cap now domain .beginner rs).modules =
        (buildModules max_per_module diversity_cap domain .beginner rs).take K ∧
      sumHours ((buildModules max_per_module diversity_cap domain .beginner rs).take K) ≤ cap ∧
      (∀ j, j ≤ (buildModules max_per_module diversity_cap domain .beginner rs).length →
        sumHours ((buildModules max_per_module diversity_cap domain .beginner rs).take j) ≤ cap →
        j ≤ K) ∧
      (build_path max_per_module cap diversity_cap now domain .beginner rs).total_estimated_hours =
        pythonRound 1
          (sumHours ((buildModules max_per_module diversity_cap domain .beginner rs).take K)) := by
  have hmods := buildModules_hours_nonneg max_per_module diversity_cap domain .beginner rs hnn
  obtain ⟨K, e1, e2, e3⟩ :=
    trimModules_take cap (buildModules max_per_module diversity_cap domain .beginner rs) 0
      hmods hcap
  rw [zero_add] at e2
  have e3' : ∀ j, j ≤ (buildModules max_per_module diversity_cap domain .beginner rs).length →
      sumHours ((buildModules max_per_module diversity_cap domain .beginner rs).take j) ≤ cap →
      j ≤ K := by
    intro j hj hs
    exact e3 j hj (by simpa using hs)
  have hcond : DifficultyLevel.beginner = DifficultyLevel.beginner ∧
      cap < sumHours (buildModules max_per_module diversity_cap domain .beginner rs) :=
    ⟨rfl, hover⟩
  refine ⟨K, ?_, e2, e3', ?_⟩
  · show (if DifficultyLevel.beginner = DifficultyLevel.beginner ∧
        cap < sumHours (buildModules max_per_module diversity_cap domain .beginner rs) then
        trimModules cap 0 (buildModules max_per_module diversity_cap domain .beginner rs)
      else buildModules max_per_module diversity_cap domain .beginner rs) = _
    rw [if_pos hcond, e1]
  · show pythonRound 1 (if DifficultyLevel.beginner = DifficultyLevel.beginner ∧
        cap < sumHours (buildModules max_per_module diversity_cap domain .beginner rs) then
        sumHours (if DifficultyLevel.beginner = DifficultyLevel.beginner ∧
          cap < sumHours (buildModules max_per_module diversity_cap domain .beginner rs) then
          trimModules cap 0 (buildModules max_per_module diversity_cap domain .beginner rs)
        else buildModules max_per_module diversity_cap domain .beginner rs)
      else sumHours (buildModules max_per_module diversity_cap domain .beginner rs)) = _
    rw [if_pos hcond, if_pos hcond, e1]

/-- C7, witness: the amended theorem applied to the concrete scenario of
the counterexample (cap 3, modules of 2.25 and 5 hours). -/
theorem beginner_hour_cap_longest_fitting_pre_witness :
    (0:ℚ) ≤ 3 ∧ (∀ r ∈ [rHours1, rHours2], 0 ≤ hoursOf r) ∧
    3 < sumHours (buildModules 1 (2/5) .ml_basics .beginner [rHours1, rHours2]) ∧
    ∃ K,
      (build_path 1 3 (2/5) 0 .ml_basics .beginner [rHours1, rHours2]).modules =
        (buildModules 1 (2/5) .ml_basics .beginner [rHours1, rHours2]).take K ∧
      sumHours ((buildModules 1 (2/5) .ml_basics .beginner [rHours1, rHours2]).take K) ≤ 3 ∧
      (∀ j, j ≤ (buildModules 1 (2/5) .ml_basics .beginner [rHours1, rHours2]).length →
        sumHours ((buildModules 1 (2/5) .ml_basics .beginner [rHours1, rHours2]).take j) ≤ 3 →
        j ≤ K) ∧
      (build_path 1 3 (2/5) 0 .ml_basics .beginner [rHours1, rHours2]).total_estimated_hours =
        pythonRound 1
          (sumHours ((buildModules 1 (2/5) .ml_basics .beginner [rHours1, rHours2]).take K)) :=
  ⟨by decide, by decide, by decide,
    beginner_hour_cap_longest_fitting_pre 1 3 (2/5) 0 .ml_basics [rHours1, rHours2]
      (by decide) (by decide) (by decide)⟩

/-! ### C1: upsert idempotence for a fixed URL -/

/-- Folding accepted same-id submissions into a cache that already holds
the id keeps a single entry whose score accumulates the maximum and
whose `discovered_at` never changes. -/
theorem upsertAll_existing (min_score : ℚ) (i : String) :
    ∀ (rs : List Resource) (cache : List (String × Resource)) (R : Resource),
      alGet cache i = some R →
      (∀ r ∈ rs, r.id = i ∧ min_score ≤ r.quality_score) →
      ∃ R', alGet (upsertAll cache rs min_score) i = some R' ∧
        R'.quality_score = rs.foldl (fun a r => max a r.quality_score) R.quality_score ∧
        R'.discovered_at = R.discovered_at ∧
        alCountKey (upsertAll cache rs min_score) i = alCountKey cache i := by
  intro rs
  induction rs with
  | nil =>
    intro cache R hget _
    exact ⟨R, hget, rfl, rfl, rfl⟩
  | cons r rs ih =>
    intro cache R hget hall
    obtain ⟨hid, hsc⟩ := hall r (List.mem_cons_self _ _)
    have hnotlt : ¬ r.quality_score < min_score := not_lt.mpr hsc
    have hstep : (upsert cache r min_score).2 =
        alSet cache i { r with
          quality_score := max r.quality_score R.quality_score
          discovered_at := R.discovered_at } := by
      unfold upsert
      rw [if_neg hnotlt]
      show alSet cache r.id _ = _
      rw [hid, hget]
    have hget' : alGet (alSet cache i { r with
        quality_score := max r.quality_score R.quality_score
        discovered_at := R.discovered_at }) i = some { r with
        quality_score := max r.quality_score R.quality_score
        discovered_at := R.discovered_at } := alGet_alSet_self _ _ _
    have hcount' : alCountKey (alSet cache i { r with
        quality_score := max r.quality_score R.quality_score
        discovered_at := R.discovered_at }) i = alCountKey cache i := by
      rw [alCountKey_alSet]
      have : alHasKey cache i = true := by
        unfold alHasKey
        rw [hget]
        rfl
      rw [if_pos this]
    have hfold : upsertAll cache (r :: rs) min_score =
        upsertAll (alSet cache i { r with
          quality_score := max r.quality_score R.quality_score
          discovered_at := R.discovered_at }) rs min_score := by
      unfold upsertAll
      rw [List.foldl_cons, hstep]
    obtain ⟨R', h1, h2, h3, h4⟩ := ih _ _ hget'
      (fun x hx => hall x (List.mem_cons_of_mem _ hx))
    refine ⟨R', by rw [hfold]; exact h1, ?_, h3, ?_⟩
    · rw [h2]
      show _ = List.foldl _ (max R.quality_score r.quality_score) rs
      rw [max_comm]
    · rw [hfold]
      rw [h4, hcount']

/-- C1: upsert idempotence per URL.  For a catalog that does not yet
hold the URL and a sequence of two or more submissions sharing that URL
(hence its derived id), all scoring at or above the threshold, the final
catalog holds exactly one entry under the derived id; its score is the
maximum of all submitted scores (as a left fold of `max`), and its
`discovered_at` is the first submission's. -/
theorem upsert_same_url_idempotent (u : String) (min_score : ℚ)
    (cache : List (String × Resource)) (r₀ : Resource) (rest : List Resource)
    (hfresh : alGet cache (resource_id u) = none)
    (_htwo : rest ≠ [])
    (hall : ∀ r ∈ r₀ :: rest, r.url = u ∧ r.id = resource_id u ∧ min_score ≤ r.quality_score) :
    ∃ R, alGet (upsertAll cache (r₀ :: rest) min_score) (resource_id u) = some R ∧
      alCountKey (upsertAll cache (r₀ :: rest) min_score) (resource_id u) = 1 ∧
      R.quality_score = rest.foldl (fun a r => max a r.quality_score) r₀.quality_score ∧
      R.discovered_at = r₀.discovered_at := by
  obtain ⟨hurl0, hid0, hsc0⟩ := hall r₀ (List.mem_cons_self _ _)
  have hnotlt : ¬ r₀.quality_score < min_score := not_lt.mpr hsc0
  have hstep : (upsert cache r₀ min_score).2 = alSet cache (resource_id u) r₀ := by
    unfold upsert
    rw [if_neg hnotlt]
    show alSet cache r₀.id _ = _
    rw [hid0]
    have : alGet cache r₀.id = none := by rw [hid0]; exact hfresh
    rw [hid0] at this
    rw [this]
  have hget1 : alGet (alSet cache (resource_id u) r₀) (resource_id u) = some r₀ :=
    alGet_alSet_self _ _ _
  have hcount1 : alCountKey (alSet cache (resource_id u) r₀) (resource_id u) = 1 := by
    rw [alCountKey_alSet]
    have hk : alHasKey cache (resource_id u) = false := by
      unfold alHasKey
      rw [hfresh]
      rfl
    rw [hk]
    simp [alCountKey_eq_zero_of_alGet_none cache (resource_id u) hfresh]
  have hfold : upsertAll cache (r₀ :: rest) min_score =
      upsertAll (alSet cache (resource_id u) r₀) rest min_score := by
    unfold upsertAll
    rw [List.foldl_cons, hstep]
  obtain ⟨R, h1, h2, h3, h4⟩ := upsertAll_existing min_score (resource_id u) rest
    (alSet cache (resource_id u) r₀) r₀ hget1
    (fun x hx => ⟨(hall x (List.mem_cons_of_mem _ hx)).2.1,
      (hall x (List.mem_cons_of_mem _ hx)).2.2⟩)
  refine ⟨R, by rw [hfold]; exact h1, ?_, h2, h3⟩
  rw [hfold, h4, hcount1]

/-- C1, witness: two submissions of `https://example.com` with scores
`0.5` then `0.7` into an empty catalog leave one entry with score `0.7`
and the first submission's `discovered_at`. -/
theorem upsert_same_url_idempotent_witness :
    alGet ([] : List (String × Resource)) (resource_id subUrl) = none ∧
    ([sub2] : List Resource) ≠ [] ∧
    (∀ r ∈ [sub1, sub2], r.url = subUrl ∧ r.id = resource_id subUrl ∧
      (3/10 : ℚ) ≤ r.quality_score) ∧
    ∃ R, alGet (upsertAll [] [sub1, sub2] (3/10)) (resource_id subUrl) = some R ∧
      alCountKey (upsertAll [] [sub1, sub2] (3/10)) (resource_id subUrl) = 1 ∧
      R.quality_score = [sub2].foldl (fun a r => max a r.quality_score) sub1.quality_score ∧
      R.discovered_at = sub1.discovered_at := by
  have hall : ∀ r ∈ [sub1, sub2], r.url = subUrl ∧ r.id = resource_id subUrl ∧
      (3/10 : ℚ) ≤ r.quality_score := by
    intro r hr
    rcases List.mem_cons.mp hr with h | h
    · subst h
      exact ⟨rfl, rfl, by norm_num [sub1]⟩
    · rcases List.mem_cons.mp h with h2 | h2
      · subst h2
        exact ⟨rfl, rfl, by norm_num [sub2]⟩
      · simp at h2
  exact ⟨rfl, by simp, hall,
    upsert_same_url_idempotent subUrl (3/10) [] sub1 [sub2] rfl (by simp) hall⟩

/-! ### C8: searcher failure isolation -/

theorem githubSearchers_forall₂ :
    ∀ (S₁ S₂ : List Searcher),
      List.Forall₂ (fun s t => s.name = t.name ∧
        ∀ q mm, search_one s q mm = search_one t q mm) S₁ S₂ →
      List.Forall₂ (fun s t => s.name = t.name ∧
        ∀ q mm, search_one s q mm = search_one t q mm)
        (githubSearchers S₁) (githubSearchers S₂) := by
  intro S₁ S₂ h
  induction h with
  | nil => exact List.Forall₂.nil
  | cons hst hrest ih =>
    unfold githubSearchers at *
    rename_i s t S₁' S₂'
    by_cases hg : s.name = "github"
    · rw [List.filter_cons_of_pos (by simp [hg]),
        List.filter_cons_of_pos (by simp [hst.1 ▸ hg])]
      exact List.Forall₂.cons hst ih
    · rw [List.filter_cons_of_neg (by simp [hg]),
        List.filter_cons_of_neg (by simp [hst.1 ▸ hg])]
      exact ih

theorem discoveryTasks_congr (queries gh : List String) (m : ℕ) :
    ∀ (S₁ S₂ : List Searcher),
      List.Forall₂ (fun s t => s.name = t.name ∧
        ∀ q mm, search_one s q mm = search_one t q mm) S₁ S₂ →
      discoveryTasks S₁ queries gh m = discoveryTasks S₂ queries gh m ∧
      queries_executed S₁ queries gh = queries_executed S₂ queries gh := by
  intro S₁ S₂ h
  have hmap : ∀ (T₁ T₂ : List Searcher),
      List.Forall₂ (fun s t => s.name = t.name ∧
        ∀ q mm, search_one s q mm = search_one t q mm) T₁ T₂ →
      ∀ q, T₁.map (fun s => search_one s q m) = T₂.map (fun s => search_one s q m) := by
    intro T₁ T₂ ht q
    induction ht with
    | nil => rfl
    | cons hst _ ih =>
      simp only [List.map_cons, ih, hst.2]
  have hgh := githubSearchers_forall₂ S₁ S₂ h
  constructor
  · unfold discoveryTasks
    rw [funext (hmap S₁ S₂ h), funext (hmap _ _ hgh)]
  · unfold queries_executed
    rw [h.length_eq, hgh.length_eq]

theorem forall₂_set (R : Searcher → Searcher → Prop) (hrefl : ∀ s, R s s)
    (F E : Searcher) (hFE : R F E) :
    ∀ (S : List Searcher) (i : ℕ), List.Forall₂ R (S.set i F) (S.set i E) := by
  intro S
  induction S with
  | nil =>
    intro i
    exact List.Forall₂.nil
  | cons s rest ih =>
    intro i
    cases i with
    | zero => exact List.Forall₂.cons hFE (List.forall₂_same.mpr (fun x _ => hrefl x))
    | succ i' => exact List.Forall₂.cons (hrefl s) (ih i')

/-- C8: searcher failure isolation.  If a searcher's `search` raises,
the per-task wrapper `_search_one` returns the empty list and no
exception escapes; moreover a run whose searcher at position `i` always
raises produces exactly the task results and `queries_executed` count of
the same run with that searcher replaced by one returning no results —
every other task, and the report arithmetic, is untouched by the
failure. -/
theorem searcher_failure_isolated (S : List Searcher) (i : ℕ) (F : Searcher)
    (hfail : ∀ q mm, ∃ e, F.search q mm = Except.error e)
    (queries gh : List String) (m : ℕ) :
    (∀ q mm, search_one F q mm = []) ∧
    discoveryTasks (S.set i F) queries gh m =
      discoveryTasks (S.set i (emptySearcher F.name)) queries gh m ∧
    queries_executed (S.set i F) queries gh =
      queries_executed (S.set i (emptySearcher F.name)) queries gh := by
  have hempty : ∀ q mm, search_one F q mm = [] := by
    intro q mm
    obtain ⟨e, he⟩ := hfail q mm
    unfold search_one
    rw [he]
  have hFE : F.name = (emptySearcher F.name).name ∧
      ∀ q mm, search_one F q mm = search_one (emptySearcher F.name) q mm := by
    refine ⟨rfl, fun q mm => ?_⟩
    rw [hempty]
    rfl
  have h2 := discoveryTasks_congr queries gh m _ _
    (forall₂_set _ (fun s => ⟨rfl, fun _ _ => rfl⟩) F (emptySearcher F.name) hFE S i)
  exact ⟨hempty, h2.1, h2.2⟩

/-- C8, witness: a one-searcher run with an always-raising `github`
searcher equals the run with an empty-result searcher in its place. -/
theorem searcher_failure_isolated_witness :
    discoveryTasks ([okSearcher].set 0 failingSearcher) ["q"] ["g"] 5 =
      discoveryTasks ([okSearcher].set 0 (emptySearcher failingSearcher.name)) ["q"] ["g"] 5 ∧
    queries_executed ([okSearcher].set 0 failingSearcher) ["q"] ["g"] =
      queries_executed ([okSearcher].set 0 (emptySearcher failingSearcher.name)) ["q"] ["g"] :=
  (searcher_failure_isolated [okSearcher] 0 failingSearcher
    (fun _ _ => ⟨"boom", rfl⟩) ["q"] ["g"] 5).2

/-! ### C9: determinism of the evaluator -/

/-- C9, counterexample: the claim says two evaluations of the same
`SearchResult` at different times produce identical field values,
including the quality score.  `evaluate` stamps `discovered_at` with the
evaluation instant and scores freshness against it: `srPlain` (updated
at day 0) evaluated at day 100 scores `0.25` (freshness window `< 365`),
at day 400 scores `0.18` (window `< 730`), and the `discovered_at`
fields differ outright.  `srPlain` has zero stars, so the `log10`
stand-in is never consulted. -/
theorem evaluate_not_time_invariant :
    (evaluate log10Zero 100 srPlain).discovered_at ≠
      (evaluate log10Zero 400 srPlain).discovered_at ∧
    (evaluate log10Zero 100 srPlain).quality_score = 1/4 ∧
    (evaluate log10Zero 400 srPlain).quality_score = 9/50 ∧
    (1/4 : ℚ) ≠ 9/50 := by
  exact ⟨by decide, by decide, by decide, by decide⟩

/-- C9 (amended): the evaluator is deterministic as a function of the
`SearchResult` and the evaluation instant.  Every field other than
`discovered_at` and `quality_score` depends only on the input (it is
unchanged across evaluation times and `log10` models);
`discovered_at` equals the evaluation instant; and when the raw
metadata carries no update instant the quality score, too, is
time-independent. -/
theorem evaluate_deterministic_given_time (log10f : ℕ → ℚ) (t₁ t₂ : ℤ) (r : SearchResult) :
    (evaluate log10f t₁ r).id = (evaluate log10f t₂ r).id ∧
    (evaluate log10f t₁ r).url = (evaluate log10f t₂ r).url ∧
    (evaluate log10f t₁ r).title = (evaluate log10f t₂ r).title ∧
    (evaluate log10f t₁ r).description = (evaluate log10f t₂ r).description ∧
    (evaluate log10f t₁ r).provider = (evaluate log10f t₂ r).provider ∧
    (evaluate log10f t₁ r).domains = (evaluate log10f t₂ r).domains ∧
    (evaluate log10f t₁ r).content_type = (evaluate log10f t₂ r).content_type ∧
    (evaluate log10f t₁ r).difficulty = (evaluate log10f t₂ r).difficulty ∧
    (evaluate log10f t₁ r).raw_metadata = (evaluate log10f t₂ r).raw_metadata ∧
    (evaluate log10f t₁ r).discovered_at = t₁ ∧
    (evaluate log10f t₂ r).discovered_at = t₂ ∧
    (r.raw.updated_at = none →
      (evaluate log10f t₁ r).quality_score = (evaluate log10f t₂ r).quality_score) := by
  refine ⟨rfl, rfl, rfl, rfl, rfl, rfl, rfl, rfl, rfl, rfl, rfl, ?_⟩
  intro hnone
  show pythonRound 3 _ = pythonRound 3 _
  congr 1
  simp only [hnone]

/-- C9, witness: the amended theorem at `srPlain` and two concrete
instants; `srPlain` carries an update instant, so we also exhibit a
no-update variant discharging the implication. -/
theorem evaluate_deterministic_given_time_witness :
    (evaluate log10Zero 100 srPlain).provider = (evaluate log10Zero 400 srPlain).provider ∧
    (evaluate log10Zero 100 srPlain).discovered_at = 100 ∧
    (evaluate log10Zero 400 srPlain).discovered_at = 400 :=
  ⟨(evaluate_deterministic_given_time log10Zero 100 400 srPlain).2.2.2.2.1,
   (evaluate_deterministic_given_time log10Zero 100 400 srPlain).2.2.2.2.2.2.2.2.2.1,
   (evaluate_deterministic_given_time log10Zero 100 400 srPlain).2.2.2.2.2.2.2.2.2.2.1⟩

/-! ### C10: content-free documents and the 5000-character window -/

theorem collapseWsAux_cons_space_t (c : Char) (xs : List Char) (h : isPySpace c = true) :
    collapseWsAux true (c :: xs) = collapseWsAux true xs := by
  simp [collapseWsAux, h]

theorem collapseWsAux_cons_space_f (c : Char) (xs : List Char) (h : isPySpace c = true) :
    collapseWsAux false (c :: xs) = ' ' :: collapseWsAux true xs := by
  simp [collapseWsAux, h]

theorem collapseWsAux_cons_nonspace (b : Bool) (c : Char) (xs : List Char)
    (h : isPySpace c = false) :
    collapseWsAux b (c :: xs) = c :: collapseWsAux false xs := by
  simp [collapseWsAux, h]

theorem collapseWsAux_true_replicate (l : List Char) :
    ∀ n : ℕ, collapseWsAux true (List.replicate n ' ' ++ l) = collapseWsAux true l := by
  intro n
  induction n with
  | zero => rfl
  | succ n ih =>
    rw [List.replicate_succ, List.cons_append,
      collapseWsAux_cons_space_t _ _ (by decide)]
    exact ih

theorem dropWhile_collapseWsAux_flag (l : List Char) :
    (collapseWsAux true l).dropWhile isPySpace =
      (collapseWsAux false l).dropWhile isPySpace := by
  cases l with
  | nil => rfl
  | cons c cs =>
    by_cases h : isPySpace c = true
    · rw [collapseWsAux_cons_space_t _ _ h, collapseWsAux_cons_space_f _ _ h,
        List.dropWhile_cons_of_pos (by decide)]
    · rw [collapseWsAux_cons_nonspace _ _ _ (by simpa using h),
        collapseWsAux_cons_nonspace _ _ _ (by simpa using h)]

theorem pyStripL_congr (a b : List Char)
    (h : a.dropWhile isPySpace = b.dropWhile isPySpace) : pyStripL a = pyStripL b := by
  unfold pyStripL
  rw [h]

theorem normaliseL_replicate_space (l : List Char) (n : ℕ) :
    normaliseL (List.replicate n ' ' ++ l) = normaliseL l := by
  unfold normaliseL
  rw [List.map_append, List.map_replicate]
  have hsp : keepAlnum (pyLowerChar ' ') = ' ' := by decide
  rw [hsp]
  cases n with
  | zero => simp
  | succ n =>
    rw [List.replicate_succ, List.cons_append,
      collapseWsAux_cons_space_f _ _ (by decide),
      collapseWsAux_true_replicate]
    refine pyStripL_congr _ _ ?_
    rw [List.dropWhile_cons_of_pos (by decide)]
    exact dropWhile_collapseWsAux_flag _

/-- `trigrams` of a text whose normalisation is shorter than three
characters is the singleton of that normalisation. -/
theorem trigrams_short (s : String) (h : (normalise s).data.length < 3) :
    trigrams s = {normalise s} := by
  unfold trigrams
  rw [if_neg (by omega)]

theorem jaccard_singleton_same (t : String) : jaccard {t} {t} = 1 := by
  simp [jaccard]

/-- C10 (amended): for every two scraped documents with distinct ids
whose first 5000 characters of `text_content` normalise to the same
string of fewer than three characters, the trigram sets are the
singleton of that string, their Jaccard similarity is `1.0`, and
`find_duplicates` at the default `0.85` threshold unconditionally
groups the two as near-duplicates. -/
theorem degenerate_pair_always_grouped (c₁ c₂ : ScrapedContent)
    (hid : c₁.resource_id ≠ c₂.resource_id)
    (hsame : normalise ⟨c₁.text_content.data.take 5000⟩ =
      normalise ⟨c₂.text_content.data.take 5000⟩)
    (hshort : (normalise ⟨c₁.text_content.data.take 5000⟩).data.length < 3) :
    trigrams ⟨c₁.text_content.data.take 5000⟩ =
      {normalise ⟨c₁.text_content.data.take 5000⟩} ∧
    jaccard (trigrams ⟨c₁.text_content.data.take 5000⟩)
      (trigrams ⟨c₂.text_content.data.take 5000⟩) = 1 ∧
    ∃ g, find_duplicates (17/20) [c₁, c₂] = [g] ∧
      ((g.canonical_id = c₁.resource_id ∧ g.duplicate_ids = [c₂.resource_id]) ∨
       (g.canonical_id = c₂.resource_id ∧ g.duplicate_ids = [c₁.resource_id])) := by
  have hT1 : trigrams ⟨c₁.text_content.data.take 5000⟩ =
      {normalise ⟨c₁.text_content.data.take 5000⟩} := trigrams_short _ hshort
  have hT2 : trigrams ⟨c₂.text_content.data.take 5000⟩ =
      {normalise ⟨c₁.text_content.data.take 5000⟩} := by
    rw [trigrams_short _ (hsame ▸ hshort), hsame]
  have hj : jaccard (trigrams ⟨c₁.text_content.data.take 5000⟩)
      (trigrams ⟨c₂.text_content.data.take 5000⟩) = 1 := by
    rw [hT1, hT2]
    exact jaccard_singleton_same _
  refine ⟨hT1, hj, ?_⟩
  have hθ : (17/20 : ℚ) ≤ 1 := by norm_num
  have hid' : ¬ (c₂.resource_id = c₁.resource_id) := fun h => hid h.symm
  unfold find_duplicates
  rw [if_neg (by simp)]
  simp only [List.foldl_cons, List.foldl_nil, alSet, alGet, List.map_cons, List.map_nil,
    pairsOrder, List.map, List.append_nil, List.cons_append, List.nil_append,
    if_neg hid, if_neg hid', if_pos rfl, dedupStep, alGetD, Option.getD_some, hj,
    if_pos hθ]
  by_cases hH : c₂.headings.length ≤ c₁.headings.length
  · simp [ufUnion, ufFind, groupLoop, buildGroups, alGetD, alGet, alSet,
      hid, hid', hH, hj, hθ]
  · simp [ufUnion, ufFind, groupLoop, buildGroups, alGetD, alGet, alSet,
      hid, hid', hH, hj, hθ]

/-- C10, witness: the amended theorem applied to two documents whose
texts `"ab"` and `"AB!"` both normalise to `"ab"`. -/
theorem degenerate_pair_always_grouped_witness :
    docShort.resource_id ≠ docShort2.resource_id ∧
    normalise ⟨docShort.text_content.data.take 5000⟩ =
      normalise ⟨docShort2.text_content.data.take 5000⟩ ∧
    (normalise ⟨docShort.text_content.data.take 5000⟩).data.length < 3 ∧
    (trigrams ⟨docShort.text_content.data.take 5000⟩ =
      {normalise ⟨docShort.text_content.data.take 5000⟩} ∧
    jaccard (trigrams ⟨docShort.text_content.data.take 5000⟩)
      (trigrams ⟨docShort2.text_content.data.take 5000⟩) = 1 ∧
    ∃ g, find_duplicates (17/20) [docShort, docShort2] = [g] ∧
      ((g.canonical_id = docShort.resource_id ∧
        g.duplicate_ids = [docShort2.resource_id]) ∨
       (g.canonical_id = docShort2.resource_id ∧
        g.duplicate_ids = [docShort.resource_id]))) :=
  ⟨by decide, by decide, by decide,
    degenerate_pair_always_grouped docShort docShort2 (by decide) (by decide) (by decide)⟩


/-- C10, counterexample: the claim quantifies over documents whose full
`text_content` fields normalise to the same short string, but the
deduplicator only reads the first 5000 characters.  `"ab"` and 5000
spaces followed by `"ab"` both normalise to `"ab"`, yet the 5000-character
window of the longer document normalises to the empty string, the
trigram sets `{"ab"}` and `{""}` are disjoint, and `find_duplicates`
returns no group at all. -/
theorem degenerate_pair_beyond_window_not_grouped :
    normalise docShort.text_content = normalise docLong.text_content ∧
    (normalise docShort.text_content).data.length < 3 ∧
    docShort.resource_id ≠ docLong.resource_id ∧
    find_duplicates (17/20) [docShort, docLong] = [] := by
  have hlong : normalise docLong.text_content = "ab" := by
    show normalise ⟨List.replicate 5000 ' ' ++ ['a', 'b']⟩ = "ab"
    unfold normalise
    rw [normaliseL_replicate_space]
    decide
  have htake : docLong.text_content.data.take 5000 = List.replicate 5000 ' ' := by
    show (List.replicate 5000 ' ' ++ ['a', 'b']).take 5000 = _
    exact List.take_left' (List.length_replicate 5000 ' ')
  have hwin : normalise ⟨List.replicate 5000 ' '⟩ = "" := by
    unfold normalise
    rw [show List.replicate 5000 ' ' = List.replicate 5000 ' ' ++ ([] : List Char) from
      (List.append_nil _).symm, normaliseL_replicate_space]
    rfl
  have hT2 : trigrams ⟨docLong.text_content.data.take 5000⟩ = {""} := by
    rw [htake, trigrams_short _ (by rw [hwin]; decide), hwin]
  have hT1 : trigrams ⟨docShort.text_content.data.take 5000⟩ = {"ab"} := by decide
  have hj0 : jaccard ({"ab"} : Finset String) {""} = 0 := by decide
  have hidS : docShort.resource_id = "x" := rfl
  have hidL : docLong.resource_id = "y" := rfl
  have hne : ("x" : String) ≠ "y" := by decide
  refine ⟨by rw [hlong]; decide, by decide, by rw [hidS, hidL]; exact hne, ?_⟩
  unfold find_duplicates
  rw [if_neg (by simp)]
  simp only [List.foldl_cons, List.foldl_nil, alSet, alGet, List.map_cons, List.map_nil,
    pairsOrder, List.map, List.append_nil, List.cons_append, List.nil_append, dedupStep,
    alGetD, hT1, hT2, hidS, hidL]
  simp [hj0, hne, Ne.symm hne, groupLoop, buildGroups, ufFind, alGetD, alGet, alSet]

/-! ### C4: dedup correctness on an A-B-near-duplicate triple -/

theorem alGet_nil {κ β : Type} [DecidableEq κ] (k : κ) :
    alGet ([] : List (κ × β)) k = none := rfl

theorem alGet_cons_self {κ β : Type} [DecidableEq κ] (k : κ) (v : β) (rest : List (κ × β)) :
    alGet ((k, v) :: rest) k = some v := by
  simp [alGet]

theorem alGet_cons_ne {κ β : Type} [DecidableEq κ] (k k' : κ) (v : β) (rest : List (κ × β))
    (h : k' ≠ k) : alGet ((k', v) :: rest) k = alGet rest k := by
  simp [alGet, h]

theorem alSet_nil {κ β : Type} [DecidableEq κ] (k : κ) (v : β) :
    alSet ([] : List (κ × β)) k v = [(k, v)] := rfl

theorem alSet_cons_self {κ β : Type} [DecidableEq κ] (k : κ) (v v' : β) (rest : List (κ × β)) :
    alSet ((k, v') :: rest) k v = (k, v) :: rest := by
  simp [alSet]

theorem alSet_cons_ne {κ β : Type} [DecidableEq κ] (k k' : κ) (v v' : β) (rest : List (κ × β))
    (h : k' ≠ k) : alSet ((k', v') :: rest) k v = (k', v') :: alSet rest k v := by
  simp [alSet, h]

/-- C4: for every three scraped documents with distinct ids where A and
B have trigram-Jaccard similarity (over the first 5000 characters) at or
above the `0.85` threshold and C is below the threshold against both,
`find_duplicates` returns exactly one group; its members are A and B
(one canonical, the other listed as duplicate), the canonical member is
the one with strictly more extracted headings when they differ, and C
appears in no group. -/
theorem find_duplicates_pair_with_outsider (cA cB cC : ScrapedContent)
    (hab : cA.resource_id ≠ cB.resource_id)
    (hac : cA.resource_id ≠ cC.resource_id)
    (hbc : cB.resource_id ≠ cC.resource_id)
    (hsAB : 17/20 ≤ jaccard (trigrams ⟨cA.text_content.data.take 5000⟩)
      (trigrams ⟨cB.text_content.data.take 5000⟩))
    (hsAC : jaccard (trigrams ⟨cA.text_content.data.take 5000⟩)
      (trigrams ⟨cC.text_content.data.take 5000⟩) < 17/20)
    (hsBC : jaccard (trigrams ⟨cB.text_content.data.take 5000⟩)
      (trigrams ⟨cC.text_content.data.take 5000⟩) < 17/20) :
    ∃ g, find_duplicates (17/20) [cA, cB, cC] = [g] ∧
      ((g.canonical_id = cA.resource_id ∧ g.duplicate_ids = [cB.resource_id]) ∨
       (g.canonical_id = cB.resource_id ∧ g.duplicate_ids = [cA.resource_id])) ∧
      (cB.headings.length < cA.headings.length → g.canonical_id = cA.resource_id) ∧
      (cA.headings.length < cB.headings.length → g.canonical_id = cB.resource_id) ∧
      cC.resource_id ≠ g.canonical_id ∧ cC.resource_id ∉ g.duplicate_ids := by
  have hab' : ¬ (cB.resource_id = cA.resource_id) := fun h => hab h.symm
  have hac' : ¬ (cC.resource_id = cA.resource_id) := fun h => hac h.symm
  have hbc' : ¬ (cC.resource_id = cB.resource_id) := fun h => hbc h.symm
  have hnAC : ¬ (17/20 ≤ jaccard (trigrams ⟨cA.text_content.data.take 5000⟩)
      (trigrams ⟨cC.text_content.data.take 5000⟩)) := not_le.mpr hsAC
  have hnBC : ¬ (17/20 ≤ jaccard (trigrams ⟨cB.text_content.data.take 5000⟩)
      (trigrams ⟨cC.text_content.data.take 5000⟩)) := not_le.mpr hsBC
  unfold find_duplicates
  rw [if_neg (by simp)]
  simp only [List.foldl_cons, List.foldl_nil, List.map_cons, List.map_nil, pairsOrder,
    List.map, List.append_nil, List.cons_append, List.nil_append, dedupStep, alGetD,
    alSet_nil, alSet_cons_self, alSet_cons_ne _ _ _ _ _ hab, alSet_cons_ne _ _ _ _ _ hac,
    alSet_cons_ne _ _ _ _ _ hbc, alGet_cons_self, alGet_cons_ne _ _ _ _ hab,
    alGet_cons_ne _ _ _ _ hac, alGet_cons_ne _ _ _ _ hbc, Option.getD_some,
    if_pos hsAB, if_neg hnAC, if_neg hnBC]
  by_cases hH : cB.headings.length ≤ cA.headings.length
  · have hU : ufUnion
        [(cA.resource_id, cA.resource_id), (cB.resource_id, cB.resource_id),
          (cC.resource_id, cC.resource_id)]
        [(cA.resource_id, cA.headings.length), (cB.resource_id, cB.headings.length),
          (cC.resource_id, cC.headings.length)]
        cA.resource_id cB.resource_id =
        [(cA.resource_id, cA.resource_id), (cB.resource_id, cA.resource_id),
          (cC.resource_id, cC.resource_id)] := by
      simp only [ufUnion, ufFind, List.length_cons, List.length_nil, alGetD,
        alGet_cons_self, alGet_cons_ne _ _ _ _ hab, alGet_cons_ne _ _ _ _ hac,
        alGet_cons_ne _ _ _ _ hbc, Option.getD_some, if_pos rfl, if_true, if_neg hab,
        if_pos hH, alSet_cons_self, alSet_cons_ne _ _ _ _ _ hab,
        alSet_cons_ne _ _ _ _ _ hac, alSet_cons_ne _ _ _ _ _ hbc]
    rw [hU]
    have hGL : (groupLoop [cA.resource_id, cB.resource_id, cC.resource_id]
        [(cA.resource_id, cA.resource_id), (cB.resource_id, cA.resource_id),
          (cC.resource_id, cC.resource_id)] []).1 =
        [(cA.resource_id, [cA.resource_id, cB.resource_id]),
          (cC.resource_id, [cC.resource_id])] := by
      simp only [groupLoop, ufFind, List.length_cons, List.length_nil, alGetD, alGet_nil,
        alGet_cons_self, alGet_cons_ne _ _ _ _ hab, alGet_cons_ne _ _ _ _ hac,
        alGet_cons_ne _ _ _ _ hbc, alGet_cons_ne _ _ _ _ hab', Option.getD_some,
        Option.getD_none, if_pos rfl, if_true, if_neg hab, if_neg hab', alSet_nil,
        alSet_cons_self, alSet_cons_ne _ _ _ _ _ hab, alSet_cons_ne _ _ _ _ _ hac,
        alSet_cons_ne _ _ _ _ _ hbc, List.nil_append, List.cons_append, List.append_nil]
    rw [hGL]
    simp [buildGroups, hab, hab', hac, hac', hbc, hbc', not_lt.mpr hH]
  · have hU : ufUnion
        [(cA.resource_id, cA.resource_id), (cB.resource_id, cB.resource_id),
          (cC.resource_id, cC.resource_id)]
        [(cA.resource_id, cA.headings.length), (cB.resource_id, cB.headings.length),
          (cC.resource_id, cC.headings.length)]
        cA.resource_id cB.resource_id =
        [(cA.resource_id, cB.resource_id), (cB.resource_id, cB.resource_id),
          (cC.resource_id, cC.resource_id)] := by
      simp only [ufUnion, ufFind, List.length_cons, List.length_nil, alGetD,
        alGet_cons_self, alGet_cons_ne _ _ _ _ hab, alGet_cons_ne _ _ _ _ hac,
        alGet_cons_ne _ _ _ _ hbc, Option.getD_some, if_pos rfl, if_true, if_neg hab,
        if_neg hH, alSet_cons_self, alSet_cons_ne _ _ _ _ _ hab,
        alSet_cons_ne _ _ _ _ _ hac, alSet_cons_ne _ _ _ _ _ hbc]
    rw [hU]
    have hGL : (groupLoop [cA.resource_id, cB.resource_id, cC.resource_id]
        [(cA.resource_id, cB.resource_id), (cB.resource_id, cB.resource_id),
          (cC.resource_id, cC.resource_id)] []).1 =
        [(cB.resource_id, [cA.resource_id, cB.resource_id]),
          (cC.resource_id, [cC.resource_id])] := by
      simp only [groupLoop, ufFind, List.length_cons, List.length_nil, alGetD, alGet_nil,
        alGet_cons_self, alGet_cons_ne _ _ _ _ hab, alGet_cons_ne _ _ _ _ hac,
        alGet_cons_ne _ _ _ _ hbc, alGet_cons_ne _ _ _ _ hab', Option.getD_some,
        Option.getD_none, if_pos rfl, if_true, if_neg hab, if_neg hab', alSet_nil,
        alSet_cons_self, alSet_cons_ne _ _ _ _ _ hab, alSet_cons_ne _ _ _ _ _ hac,
        alSet_cons_ne _ _ _ _ _ hbc, List.nil_append, List.cons_append, List.append_nil]
    rw [hGL]
    have hlt := not_le.mp hH
    simp [buildGroups, hab, hab', hac, hac', hbc, hbc', not_lt.mpr (le_of_lt hlt)]

/-- C4, witness: the theorem applied to three concrete documents — A and
B share text up to punctuation (similarity 1), C is unrelated, and A has
more headings than B, so A is canonical. -/
theorem find_duplicates_pair_with_outsider_witness :
    docA.resource_id ≠ docB.resource_id ∧
    (17/20 : ℚ) ≤ jaccard (trigrams ⟨docA.text_content.data.take 5000⟩)
      (trigrams ⟨docB.text_content.data.take 5000⟩) ∧
    jaccard (trigrams ⟨docA.text_content.data.take 5000⟩)
      (trigrams ⟨docC.text_content.data.take 5000⟩) < 17/20 ∧
    jaccard (trigrams ⟨docB.text_content.data.take 5000⟩)
      (trigrams ⟨docC.text_content.data.take 5000⟩) < 17/20 ∧
    ∃ g, find_duplicates (17/20) [docA, docB, docC] = [g] ∧
      ((g.canonical_id = docA.resource_id ∧ g.duplicate_ids = [docB.resource_id]) ∨
       (g.canonical_id = docB.resource_id ∧ g.duplicate_ids = [docA.resource_id])) ∧
      (docB.headings.length < docA.headings.length → g.canonical_id = docA.resource_id) ∧
      (docA.headings.length < docB.headings.length → g.canonical_id = docB.resource_id) ∧
      docC.resource_id ≠ g.canonical_id ∧ docC.resource_id ∉ g.duplicate_ids :=
  ⟨by decide, by decide, by decide, by decide,
    find_duplicates_pair_with_outsider docA docB docC (by decide) (by decide) (by decide)
      (by decide) (by decide) (by decide)⟩

/-- C2, witness: the amended theorem at a fresh catalog — an accepted
first submission returns `true`. -/
theorem upsert_flag_iff_accepted_and_new_witness :
    (upsert [] rEx (3/10)).1 = true :=
  (upsert_flag_iff_accepted_and_new [] rEx (3/10)).1.mpr ⟨by decide, rfl⟩
